import Mathlib

/-!
Shallow embedding of `src/qwt_plot_layout.cpp` (QwtPlotLayout) and proofs
about the claims of its specification.

Conventions of the embedding:
* `QRectF` becomes `RectF` with rational coordinates `(x, y, w, h)`;
  `right = x + w`, `bottom = y + h`, edge setters keep the opposite edge,
  exactly as in Qt.
* `QRect` (integer rectangle, used for the legend region subtraction)
  becomes `RectI`; `QRectF::toRect` rounds each of x, y, w, h to the
  nearest integer (half away from zero), as `qRound` does.
* C++ `int` becomes `ℤ`, `double` becomes `ℚ`; the `unsigned int spacing`
  field becomes `ℕ`.  `canvasMargin` is stored as `ℤ`: the C++ field is
  `unsigned int`, but the setter clamps to `≥ -1` and the getter converts
  back to `int`, so the stored values round-trip through the unsigned
  representation unchanged.
* collaborator widgets (legend, title/footer label, scale widgets, canvas)
  are snapshots of the read-only queries the layout code performs on them;
  measurement callbacks (`heightForWidth`, `titleHeightForWidth`,
  `dimForLength`) are arbitrary functions supplied with the snapshot.
* the `while (!done)` loop of `expandLineBreaks` is embedded as one step
  function `stepExpand` (one execution of the loop body) together with the
  reachability predicate `ExpandReaches` (the loop's result whenever the
  iteration stabilizes); `activate` correspondingly becomes the relation
  `ActivateRel`.
-/

namespace QwtPlotLayout

/-- C++ `int` conversion of a `double`: truncation toward zero. -/
def cppToInt (q : ℚ) : ℤ :=
  if 0 ≤ q then ⌊q⌋ else ⌈q⌉

/-- Qt's `qRound`: round to nearest, half away from zero. -/
def qRound (q : ℚ) : ℤ :=
  if 0 ≤ q then ⌊q + 1/2⌋ else ⌈q - 1/2⌉

/-- `qwtCeil` on a `double`, yielding an `int`. -/
def qwtCeil (q : ℚ) : ℤ := ⌈q⌉

/-- `qwtFloor` on a `double`, yielding an `int`. -/
def qwtFloor (q : ℚ) : ℤ := ⌊q⌋

/-- Axis-aligned rectangle with rational edges, mirroring `QRectF`:
stored as origin `(x, y)` plus extent `(w, h)`. -/
structure RectF where
  x : ℚ
  y : ℚ
  w : ℚ
  h : ℚ
deriving DecidableEq, Repr

namespace RectF

def left (r : RectF) : ℚ := r.x

def top (r : RectF) : ℚ := r.y

def right (r : RectF) : ℚ := r.x + r.w

def bottom (r : RectF) : ℚ := r.y + r.h

/-- `QRectF::setLeft`: moves the left edge, keeping the right edge. -/
def setLeft (r : RectF) (v : ℚ) : RectF :=
  { r with x := v, w := r.x + r.w - v }

/-- `QRectF::setRight`: moves the right edge, keeping the left edge. -/
def setRight (r : RectF) (v : ℚ) : RectF :=
  { r with w := v - r.x }

/-- `QRectF::setTop`: moves the top edge, keeping the bottom edge. -/
def setTop (r : RectF) (v : ℚ) : RectF :=
  { r with y := v, h := r.y + r.h - v }

/-- `QRectF::setBottom`: moves the bottom edge, keeping the top edge. -/
def setBottom (r : RectF) (v : ℚ) : RectF :=
  { r with h := v - r.y }

/-- `QRectF::setX` is an alias of `setLeft`. -/
def setX (r : RectF) (v : ℚ) : RectF := r.setLeft v

/-- `QRectF::setY` is an alias of `setTop`. -/
def setY (r : RectF) (v : ℚ) : RectF := r.setTop v

def setWidth (r : RectF) (v : ℚ) : RectF := { r with w := v }

def setHeight (r : RectF) (v : ℚ) : RectF := { r with h := v }

/-- `QRectF::isValid`: strictly positive extent in both directions. -/
def isValid (r : RectF) : Bool := 0 < r.w && 0 < r.h

/-- `QRectF::isEmpty`. -/
def isEmpty (r : RectF) : Bool := r.w ≤ 0 || r.h ≤ 0

/-- `QRectF::normalized`: flips a negative extent. -/
def normalized (r : RectF) : RectF :=
  let r1 := if r.w < 0 then { r with x := r.x + r.w, w := -r.w } else r
  if r1.h < 0 then { r1 with y := r1.y + r1.h, h := -r1.h } else r1

/-- The null rectangle `QRectF()` (also the value of `QRect()` after
conversion), used by `invalidate`. -/
def zero : RectF := ⟨0, 0, 0, 0⟩

/-- The open interiors of the two rectangles do not meet (shared edges
are allowed). -/
def interiorDisjoint (a b : RectF) : Prop :=
  min (a.x + a.w) (b.x + b.w) ≤ max a.x b.x ∨
    min (a.y + a.h) (b.y + b.h) ≤ max a.y b.y

instance (a b : RectF) : Decidable (interiorDisjoint a b) := by
  unfold interiorDisjoint; infer_instance

end RectF

/-- Integer rectangle, mirroring `QRect` as origin plus extent. -/
structure RectI where
  x : ℤ
  y : ℤ
  w : ℤ
  h : ℤ
deriving DecidableEq, Repr

/-- `QRectF::toRect`. -/
def RectF.toRect (r : RectF) : RectI :=
  ⟨qRound r.x, qRound r.y, qRound r.w, qRound r.h⟩

/-- Implicit `QRect` → `QRectF` conversion. -/
def RectI.toRectF (r : RectI) : RectF :=
  ⟨(r.x : ℚ), (r.y : ℚ), (r.w : ℚ), (r.h : ℚ)⟩

/-- `QRegion(a).subtracted(QRegion(b)).boundingRect()` for two integer
rectangles: the bounding rectangle of the set difference of the cell sets
`[x, x+w) × [y, y+h)`.  An empty source region yields the null `QRect`. -/
def regionSubtractedBounding (a b : RectI) : RectI :=
  if a.w ≤ 0 ∨ a.h ≤ 0 then ⟨0, 0, 0, 0⟩
  else
    let ix := max a.x b.x
    let iy := max a.y b.y
    let ir := min (a.x + a.w) (b.x + b.w)
    let ib := min (a.y + a.h) (b.y + b.h)
    if b.w ≤ 0 ∨ b.h ≤ 0 ∨ ir ≤ ix ∨ ib ≤ iy then a
    else
      let fullX := ix = a.x ∧ ir = a.x + a.w
      let fullY := iy = a.y ∧ ib = a.y + a.h
      if fullX ∧ fullY then ⟨0, 0, 0, 0⟩
      else
        let xlo := if (iy = a.y ∧ ib = a.y + a.h) ∧ a.x = ix then ir else a.x
        let xhi := if (iy = a.y ∧ ib = a.y + a.h) ∧ ir = a.x + a.w then ix
                   else a.x + a.w
        let ylo := if (ix = a.x ∧ ir = a.x + a.w) ∧ a.y = iy then ib else a.y
        let yhi := if (ix = a.x ∧ ir = a.x + a.w) ∧ ib = a.y + a.h then iy
                   else a.y + a.h
        ⟨xlo, ylo, xhi - xlo, yhi - ylo⟩

/-- Fixed four-element family indexed by `QwtPlot::Axis`
(`yLeft = 0`, `yRight = 1`, `xBottom = 2`, `xTop = 3`). -/
@[ext]
structure Vec4 (α : Type) where
  yLeft : α
  yRight : α
  xBottom : α
  xTop : α
deriving DecidableEq, Repr

namespace Vec4

/-- Read by runtime axis index; `dflt` for an index outside `0..3`. -/
def get (v : Vec4 α) (i : ℤ) (dflt : α) : α :=
  if i = 0 then v.yLeft
  else if i = 1 then v.yRight
  else if i = 2 then v.xBottom
  else if i = 3 then v.xTop
  else dflt

/-- Write by runtime axis index; no-op outside `0..3`. -/
def setAt (v : Vec4 α) (i : ℤ) (a : α) : Vec4 α :=
  if i = 0 then { v with yLeft := a }
  else if i = 1 then { v with yRight := a }
  else if i = 2 then { v with xBottom := a }
  else if i = 3 then { v with xTop := a }
  else v

def const (a : α) : Vec4 α := ⟨a, a, a, a⟩

end Vec4

/-- `QwtPlot::LegendPosition` values. -/
def LeftLegend : ℤ := 0

def RightLegend : ℤ := 1

def BottomLegend : ℤ := 2

def TopLegend : ℤ := 3

/-- `QwtPlotLayout::Options` flag set. -/
structure Options where
  ignoreLegend : Bool
  ignoreTitle : Bool
  ignoreFooter : Bool
  ignoreScrollbars : Bool
  ignoreFrames : Bool
deriving DecidableEq, Repr

/-- `0x00` — no option flags. -/
def Options.none : Options := ⟨false, false, false, false, false⟩

/-- Snapshot of the read-only queries `QwtAbstractLegend` answers. -/
structure LegendWidget where
  isEmptyB : Bool
  frameWidth : ℤ
  scrollExtentH : ℤ
  scrollExtentV : ℤ
  sizeHintW : ℤ
  sizeHintH : ℤ
  heightForWidth : ℤ → ℤ

/-- Snapshot of a `QwtTextLabel` (title or footer), together with the
behaviour of its `QwtText`.  `hfwTextFont` is `text().heightForWidth`
with the text's own font, `hfwLabelFont` the same after
`text.setFont(label->font())`; `usesTextFont` is
`testPaintAttribute(QwtText::PaintUsingTextFont)`.  `hfwInt` is the
label widget's own `heightForWidth(int)` used by `minimumSizeHint`. -/
structure TextLabel where
  textIsEmpty : Bool
  usesTextFont : Bool
  hfwTextFont : ℚ → ℚ
  hfwLabelFont : ℚ → ℚ
  frameWidth : ℤ
  hfwInt : ℤ → ℤ

/-- Snapshot of the read-only queries `QwtScaleWidget` answers. -/
structure ScaleWidget where
  startBorderDist : ℤ
  endBorderDist : ℤ
  margin : ℤ
  hasTicks : Bool
  maxTickLength : ℚ
  dimForLength : ℤ → ℤ
  titleIsEmpty : Bool
  titleHeightForWidth : ℤ → ℤ
  minimumSizeHintW : ℤ
  minimumSizeHintH : ℤ
  borderDistHintLeft : ℤ
  borderDistHintRight : ℤ

/-- Snapshot of the whole `QwtPlot` and its collaborators, as consumed by
the layout engine. -/
structure Plot where
  hasLegend : Bool
  legend : LegendWidget
  hasTitleLabel : Bool
  titleLabel : TextLabel
  hasFooterLabel : Bool
  footerLabel : TextLabel
  axisEnabled : Vec4 Bool
  axisWidget : Vec4 ScaleWidget
  contentsMarginLeft : ℤ
  contentsMarginTop : ℤ
  contentsMarginRight : ℤ
  contentsMarginBottom : ℤ
  canvasMinW : ℤ
  canvasMinH : ℤ

/-- `LayoutData::t_legendData`. -/
structure LegendData where
  frameWidth : ℤ
  hScrollExtent : ℤ
  vScrollExtent : ℤ
  hintW : ℤ
  hintH : ℤ

/-- `LayoutData::t_titleData` and `t_footerData`: the stored `QwtText`
is kept as its emptiness flag plus its effective `heightForWidth`
(after the conditional font override in `LayoutData::init`). -/
structure LabelData where
  textIsEmpty : Bool
  textHfw : ℚ → ℚ
  frameWidth : ℤ

/-- `LayoutData::t_scaleData`; the stored `scaleWidget` pointer is kept
as the two queries later passes perform on it. -/
structure AxisData where
  isEnabled : Bool
  widgetTitleIsEmpty : Bool
  widgetTitleHeightForWidth : ℤ → ℤ
  startDist : ℤ
  endDist : ℤ
  baseLineOffset : ℤ
  tickOffset : ℚ
  dimWithoutTitle : ℤ

/-- `QwtPlotLayout::LayoutData`. -/
structure LayoutData where
  legend : LegendData
  title : LabelData
  footer : LabelData
  scale : Vec4 AxisData
  contentsMargins : Vec4 ℤ

/-- `QwtPlotLayout::PrivateData`: output rectangles, captured layout
data and the configuration store. -/
@[ext]
structure PrivateData where
  titleRect : RectF
  footerRect : RectF
  legendRect : RectF
  scaleRect : Vec4 RectF
  canvasRect : RectF
  layoutData : LayoutData
  legendPos : ℤ
  legendRatio : ℚ
  spacing : ℕ
  canvasMargin : Vec4 ℤ
  alignCanvasToScales : Vec4 Bool

/-- `QwtPlotLayout::setCanvasMargin`. -/
def setCanvasMargin (st : PrivateData) (margin axis : ℤ) : PrivateData :=
  let m := if margin < -1 then -1 else margin
  if axis = -1 then { st with canvasMargin := Vec4.const m }
  else if 0 ≤ axis ∧ axis < 4 then
    { st with canvasMargin := st.canvasMargin.setAt axis m }
  else st

/-- `QwtPlotLayout::canvasMargin`. -/
def canvasMargin (st : PrivateData) (axisId : ℤ) : ℤ :=
  if axisId < 0 ∨ 4 ≤ axisId then 0
  else st.canvasMargin.get axisId 0

/-- `QwtPlotLayout::setAlignCanvasToScales` (all axes). -/
def setAlignCanvasToScales (st : PrivateData) (flag : Bool) : PrivateData :=
  { st with alignCanvasToScales := Vec4.const flag }

/-- `QwtPlotLayout::setAlignCanvasToScale` (one axis). -/
def setAlignCanvasToScale (st : PrivateData) (axisId : ℤ) (flag : Bool) :
    PrivateData :=
  if 0 ≤ axisId ∧ axisId < 4 then
    { st with alignCanvasToScales := st.alignCanvasToScales.setAt axisId flag }
  else st

/-- `QwtPlotLayout::alignCanvasToScale`. -/
def alignCanvasToScale (st : PrivateData) (axisId : ℤ) : Bool :=
  if axisId < 0 ∨ 4 ≤ axisId then false
  else st.alignCanvasToScales.get axisId false

/-- `QwtPlotLayout::setSpacing`. -/
def setSpacing (st : PrivateData) (spacing : ℤ) : PrivateData :=
  { st with spacing := (max 0 spacing).toNat }

/-- `QwtPlotLayout::setLegendPosition(pos, ratio)`; an unmatched
position falls through the `switch` and stores nothing. -/
def setLegendPosition (st : PrivateData) (pos : ℤ) (ratio : ℚ) :
    PrivateData :=
  let r1 := if 1 < ratio then 1 else ratio
  if pos = TopLegend ∨ pos = BottomLegend then
    { st with legendRatio := if r1 ≤ 0 then 33/100 else r1, legendPos := pos }
  else if pos = LeftLegend ∨ pos = RightLegend then
    { st with legendRatio := if r1 ≤ 0 then 1/2 else r1, legendPos := pos }
  else st

/-- `QwtPlotLayout::setLegendRatio`. -/
def setLegendRatio (st : PrivateData) (ratio : ℚ) : PrivateData :=
  setLegendPosition st st.legendPos ratio

/-- `QwtPlotLayout::legendRatio`. -/
def legendRatio (st : PrivateData) : ℚ := st.legendRatio

/-- `QwtPlotLayout::setScaleRect`. -/
def setScaleRect (st : PrivateData) (axis : ℤ) (rect : RectF) :
    PrivateData :=
  if 0 ≤ axis ∧ axis < 4 then
    { st with scaleRect := st.scaleRect.setAt axis rect }
  else st

/-- `QwtPlotLayout::scaleRect`; an index outside `0..3` yields the
static dummy (null) rectangle. -/
def scaleRect (st : PrivateData) (axis : ℤ) : RectF :=
  if axis < 0 ∨ 4 ≤ axis then RectF.zero
  else st.scaleRect.get axis RectF.zero

/-- `QwtPlotLayout::invalidate`. -/
def invalidate (st : PrivateData) : PrivateData :=
  { st with
    titleRect := RectF.zero
    footerRect := RectF.zero
    legendRect := RectF.zero
    canvasRect := RectF.zero
    scaleRect := Vec4.const RectF.zero }

/-- `QWIDGETSIZE_MAX`. -/
def QWIDGETSIZE_MAX : ℤ := 16777215

/-- Height-for-width of a default-constructed (empty) `QwtText`. -/
def emptyTextHfw : ℚ → ℚ := fun _ => 0

/-- `LayoutData::init` for one label: the stored `QwtText` uses the
label's widget font unless the text paints with its own font. -/
def labelInit (lbl : TextLabel) : LabelData :=
  { textIsEmpty := lbl.textIsEmpty
    textHfw := if lbl.usesTextFont then lbl.hfwTextFont else lbl.hfwLabelFont
    frameWidth := lbl.frameWidth }

/-- `LayoutData::init` for one axis.  A disabled axis gets all-zero
numeric entries; its stored widget queries — like the stale
`scaleWidget` pointer in the source — keep their previous values. -/
def axisInit (scl : ScaleWidget) (enabled : Bool) (prev : AxisData) :
    AxisData :=
  if enabled then
    { isEnabled := true
      widgetTitleIsEmpty := scl.titleIsEmpty
      widgetTitleHeightForWidth := scl.titleHeightForWidth
      startDist := scl.startBorderDist
      endDist := scl.endBorderDist
      baseLineOffset := scl.margin
      tickOffset := (scl.margin : ℚ) +
        (if scl.hasTicks then scl.maxTickLength else 0)
      dimWithoutTitle := scl.dimForLength QWIDGETSIZE_MAX -
        (if ¬scl.titleIsEmpty then scl.titleHeightForWidth QWIDGETSIZE_MAX
         else 0) }
  else
    { isEnabled := false
      widgetTitleIsEmpty := prev.widgetTitleIsEmpty
      widgetTitleHeightForWidth := prev.widgetTitleHeightForWidth
      startDist := 0
      endDist := 0
      baseLineOffset := 0
      tickOffset := 0
      dimWithoutTitle := 0 }

/-- `QwtPlotLayout::LayoutData::init`: extract all layout relevant data
from the plot components.  When the plot has no legend the previous
legend entry is left untouched, as in the source. -/
def dataInit (plot : Plot) (rect : RectF) (d : LayoutData) : LayoutData :=
  { legend :=
      if plot.hasLegend then
        let w := min plot.legend.sizeHintW (qwtFloor rect.w)
        let h0 := plot.legend.heightForWidth w
        let h := if h0 ≤ 0 then plot.legend.sizeHintH else h0
        { frameWidth := plot.legend.frameWidth
          hScrollExtent := plot.legend.scrollExtentH
          vScrollExtent := plot.legend.scrollExtentV
          hintW := w
          hintH := h }
      else d.legend
    title :=
      if plot.hasTitleLabel then labelInit plot.titleLabel
      else ⟨true, emptyTextHfw, 0⟩
    footer :=
      if plot.hasFooterLabel then labelInit plot.footerLabel
      else ⟨true, emptyTextHfw, 0⟩
    scale :=
      ⟨axisInit plot.axisWidget.yLeft plot.axisEnabled.yLeft d.scale.yLeft,
       axisInit plot.axisWidget.yRight plot.axisEnabled.yRight d.scale.yRight,
       axisInit plot.axisWidget.xBottom plot.axisEnabled.xBottom d.scale.xBottom,
       axisInit plot.axisWidget.xTop plot.axisEnabled.xTop d.scale.xTop⟩
    contentsMargins :=
      ⟨plot.contentsMarginLeft, plot.contentsMarginRight,
       plot.contentsMarginBottom, plot.contentsMarginTop⟩ }

/-!
`QwtPlotLayout::minimumSizeHint`
-/

/-- The local `ScaleData` record of `minimumSizeHint`. -/
structure MshScale where
  w : ℤ
  h : ℤ
  minLeft : ℤ
  minRight : ℤ
  tickOffset : ℤ
deriving DecidableEq, Repr

/-- Gathered scale data of `minimumSizeHint` for one axis (zeroed for a
disabled axis, as the `ScaleData` constructor leaves it). -/
def mshGatherAxis (scl : ScaleWidget) (enabled : Bool) : MshScale :=
  if enabled then
    { w := scl.minimumSizeHintW
      h := scl.minimumSizeHintH
      minLeft := scl.borderDistHintLeft
      minRight := scl.borderDistHintRight
      tickOffset := scl.margin +
        (if scl.hasTicks then qwtCeil scl.maxTickLength else 0) }
  else ⟨0, 0, 0, 0, 0⟩

/-- `canvasBorder[axis] = fw + canvasMargin[axis] + 1`, where `fw` is
the canvas's left contents margin (used for all four axes, as in the
source). -/
def mshCanvasBorder (st : PrivateData) (plot : Plot) : Vec4 ℤ :=
  let fw := plot.contentsMarginLeft
  ⟨fw + st.canvasMargin.yLeft + 1, fw + st.canvasMargin.yRight + 1,
   fw + st.canvasMargin.xBottom + 1, fw + st.canvasMargin.xTop + 1⟩

/-- Corner-sharing correction of `minimumSizeHint` for a horizontal
axis (`xBottom`/`xTop`): shrink its width against the two vertical
axes' widths. -/
def mshCorrH (cb : Vec4 ℤ) (s : Vec4 MshScale) (sd : MshScale) : MshScale :=
  if sd.w ≠ 0 then
    let sd1 :=
      if sd.minLeft > cb.yLeft ∧ s.yLeft.w ≠ 0 then
        { sd with w := sd.w - min (sd.minLeft - cb.yLeft) s.yLeft.w }
      else sd
    if sd1.minRight > cb.yRight ∧ s.yRight.w ≠ 0 then
      { sd1 with w := sd1.w - min (sd1.minRight - cb.yRight) s.yRight.w }
    else sd1
  else sd

/-- Corner-sharing correction of `minimumSizeHint` for a vertical axis
(`yLeft`/`yRight`): shrink its height against the two horizontal axes'
tick offsets.  Note the source guards the `xTop` correction on
`minLeft` while the shift amount uses `minRight`. -/
def mshCorrV (cb : Vec4 ℤ) (s : Vec4 MshScale) (sd : MshScale) : MshScale :=
  if sd.h ≠ 0 then
    let sd1 :=
      if sd.minLeft > cb.xBottom ∧ s.xBottom.h ≠ 0 then
        { sd with h := sd.h - min (sd.minLeft - cb.xBottom) s.xBottom.tickOffset }
      else sd
    if sd1.minLeft > cb.xTop ∧ s.xTop.h ≠ 0 then
      { sd1 with h := sd1.h - min (sd1.minRight - cb.xTop) s.xTop.tickOffset }
    else sd1
  else sd

/-- The correction loop of `minimumSizeHint` (lines 605–651), applied
to the four axes in order, mutating the array in place. -/
def mshCorrections (cb : Vec4 ℤ) (s : Vec4 MshScale) : Vec4 MshScale :=
  let s0 := { s with yLeft := mshCorrV cb s s.yLeft }
  let s1 := { s0 with yRight := mshCorrV cb s0 s0.yRight }
  let s2 := { s1 with xBottom := mshCorrH cb s1 s1.xBottom }
  { s2 with xTop := mshCorrH cb s2 s2.xTop }

/-- One iteration of the title/footer loop of `minimumSizeHint`,
updating the accumulated `(w, h)`. -/
def mshLabelStep (st : PrivateData) (plot : Plot) (s : Vec4 MshScale)
    (present : Bool) (lbl : TextLabel) (wh : ℤ × ℤ) : ℤ × ℤ :=
  if present ∧ ¬lbl.textIsEmpty then
    let centerOnCanvas := ¬(plot.axisEnabled.yLeft ∧ plot.axisEnabled.yRight)
    let labelW0 := if centerOnCanvas then wh.1 - s.yLeft.w - s.yRight.w else wh.1
    let labelH0 := lbl.hfwInt labelW0
    let (w1, labelH1) :=
      if labelH0 > labelW0 then
        let labelW1 := labelH0
        let w' := if centerOnCanvas then labelH0 + s.yLeft.w + s.yRight.w
                  else labelH0
        (w', lbl.hfwInt labelW1)
      else (wh.1, labelH0)
    (w1, wh.2 + labelH1 + st.spacing)
  else wh

/-- The legend contribution of `minimumSizeHint`. -/
def mshLegendPart (st : PrivateData) (plot : Plot) (wh : ℤ × ℤ) : ℤ × ℤ :=
  if plot.hasLegend ∧ ¬plot.legend.isEmptyB then
    if st.legendPos = LeftLegend ∨ st.legendPos = RightLegend then
      let legendW0 := plot.legend.sizeHintW
      let legendH := plot.legend.heightForWidth legendW0
      let w1 := if plot.legend.frameWidth > 0 then wh.1 + st.spacing else wh.1
      let legendW1 := if legendH > wh.2 then legendW0 + plot.legend.scrollExtentH
                      else legendW0
      let legendW2 := if st.legendRatio < 1 then
          min legendW1 (cppToInt ((w1 : ℚ) / (1 - st.legendRatio)))
        else legendW1
      (w1 + legendW2 + st.spacing, wh.2)
    else
      let legendW := min plot.legend.sizeHintW wh.1
      let legendH0 := plot.legend.heightForWidth legendW
      let h1 := if plot.legend.frameWidth > 0 then wh.2 + st.spacing else wh.2
      let legendH1 := if st.legendRatio < 1 then
          min legendH0 (cppToInt ((h1 : ℚ) / (1 - st.legendRatio)))
        else legendH0
      (wh.1, h1 + legendH1 + st.spacing)
  else wh

/-- `QwtPlotLayout::minimumSizeHint`, returning `(width, height)`. -/
def minimumSizeHint (st : PrivateData) (plot : Plot) : ℤ × ℤ :=
  let sRaw : Vec4 MshScale :=
    ⟨mshGatherAxis plot.axisWidget.yLeft plot.axisEnabled.yLeft,
     mshGatherAxis plot.axisWidget.yRight plot.axisEnabled.yRight,
     mshGatherAxis plot.axisWidget.xBottom plot.axisEnabled.xBottom,
     mshGatherAxis plot.axisWidget.xTop plot.axisEnabled.xTop⟩
  let cb := mshCanvasBorder st plot
  let s := mshCorrections cb sRaw
  let cw := max s.xBottom.w s.xTop.w +
    plot.contentsMarginLeft + 1 + plot.contentsMarginRight + 1
  let w0 := s.yLeft.w + s.yRight.w + max cw plot.canvasMinW
  let ch := max s.yLeft.h s.yRight.h +
    plot.contentsMarginTop + 1 + plot.contentsMarginBottom + 1
  let h0 := s.xBottom.h + s.xTop.h + max ch plot.canvasMinH
  let wh1 := mshLabelStep st plot s plot.hasTitleLabel plot.titleLabel (w0, h0)
  let wh2 := mshLabelStep st plot s plot.hasFooterLabel plot.footerLabel wh1
  mshLegendPart st plot wh2

/-!
`QwtPlotLayout::layoutLegend` and `QwtPlotLayout::alignLegend`
-/

/-- The `int dim` computed at the top of `QwtPlotLayout::layoutLegend`:
hint capped by the ratio share of the rectangle, plus the scroll-bar
corrections. -/
def legendDim (st : PrivateData) (options : Options) (rect : RectF) : ℤ :=
  let hintW := st.layoutData.legend.hintW
  let hintH := st.layoutData.legend.hintH
  if st.legendPos = LeftLegend ∨ st.legendPos = RightLegend then
    let d0 := min hintW (cppToInt (rect.w * st.legendRatio))
    if ¬options.ignoreScrollbars ∧ (hintH : ℚ) > rect.h then
      d0 + st.layoutData.legend.hScrollExtent
    else d0
  else
    let d0 := min hintH (cppToInt (rect.h * st.legendRatio))
    max d0 st.layoutData.legend.vScrollExtent

/-- `QwtPlotLayout::layoutLegend`: candidate legend geometry inside
`rect`.  An unmatched legend position falls through the `switch` and
returns `rect` itself. -/
def layoutLegend (st : PrivateData) (options : Options) (rect : RectF) :
    RectF :=
  let dim := legendDim st options rect
  if st.legendPos = LeftLegend then rect.setWidth (dim : ℚ)
  else if st.legendPos = RightLegend then
    (rect.setX (rect.right - dim)).setWidth (dim : ℚ)
  else if st.legendPos = TopLegend then rect.setHeight (dim : ℚ)
  else if st.legendPos = BottomLegend then
    (rect.setY (rect.bottom - dim)).setHeight (dim : ℚ)
  else rect

/-- `QwtPlotLayout::alignLegend`: stretch the legend along the canvas
when its size hint is smaller than the canvas extent. -/
def alignLegend (st : PrivateData) (canvasRect legendRect : RectF) :
    RectF :=
  if st.legendPos = BottomLegend ∨ st.legendPos = TopLegend then
    if (st.layoutData.legend.hintW : ℚ) < canvasRect.w then
      (legendRect.setX canvasRect.x).setWidth canvasRect.w
    else legendRect
  else
    if (st.layoutData.legend.hintH : ℚ) < canvasRect.h then
      (legendRect.setY canvasRect.y).setHeight canvasRect.h
    else legendRect

/-!
`QwtPlotLayout::expandLineBreaks`
-/

/-- The accumulators of `expandLineBreaks`: expanded title height,
footer height and per-axis dimension. -/
@[ext]
structure Dims where
  title : ℤ
  footer : ℤ
  axis : Vec4 ℤ
deriving DecidableEq, Repr

/-- Start value of the accumulators. -/
def Dims.zero : Dims := ⟨0, 0, ⟨0, 0, 0, 0⟩⟩

/-- Pointwise order on the accumulators. -/
def Dims.le (a b : Dims) : Prop :=
  a.title ≤ b.title ∧ a.footer ≤ b.footer ∧
    a.axis.yLeft ≤ b.axis.yLeft ∧ a.axis.yRight ≤ b.axis.yRight ∧
    a.axis.xBottom ≤ b.axis.xBottom ∧ a.axis.xTop ≤ b.axis.xTop

/-- `backboneOffset[axis]` of `expandLineBreaks`: canvas contents
margin (unless frames are ignored) plus canvas margin (unless the
canvas is aligned to that scale). -/
def backboneOffsetFor (options : Options) (contents margin : ℤ)
    (align : Bool) : ℤ :=
  (if ¬options.ignoreFrames then contents else 0) +
    (if ¬align then margin else 0)

/-- All four backbone offsets of `expandLineBreaks` / `alignScales`. -/
def backboneOffset (st : PrivateData) (options : Options) : Vec4 ℤ :=
  ⟨backboneOffsetFor options st.layoutData.contentsMargins.yLeft
     st.canvasMargin.yLeft st.alignCanvasToScales.yLeft,
   backboneOffsetFor options st.layoutData.contentsMargins.yRight
     st.canvasMargin.yRight st.alignCanvasToScales.yRight,
   backboneOffsetFor options st.layoutData.contentsMargins.xBottom
     st.canvasMargin.xBottom st.alignCanvasToScales.xBottom,
   backboneOffsetFor options st.layoutData.contentsMargins.xTop
     st.canvasMargin.xTop st.alignCanvasToScales.xTop⟩

/-- Candidate height for the title (and, with the footer's label data,
for the footer): height-for-width over the full rectangle width,
centered to the canvas when exactly one y axis is enabled. -/
def labelCandidate (st : PrivateData) (options : Options) (rect : RectF)
    (d : Dims) (lbl : LabelData) : ℤ :=
  let w : ℚ :=
    if st.layoutData.scale.yLeft.isEnabled ≠ st.layoutData.scale.yRight.isEnabled
    then rect.w - (d.axis.yLeft : ℚ) - (d.axis.yRight : ℚ)
    else rect.w
  qwtCeil (lbl.textHfw w) +
    (if ¬options.ignoreFrames then 2 * lbl.frameWidth else 0)

/-- Candidate dimension for a horizontal axis (`xTop`/`xBottom`). -/
def hAxisCandidate (st : PrivateData) (options : Options) (rect : RectF)
    (d : Dims) (sd : AxisData) : ℤ :=
  let bb := backboneOffset st options
  let len0 : ℚ := rect.w - (d.axis.yLeft : ℚ) - (d.axis.yRight : ℚ) -
    ((sd.startDist + sd.endDist : ℤ) : ℚ)
  let len1 := if d.axis.yRight > 0 then len0 - 1 else len0
  let len2 := len1 + ((min d.axis.yLeft (sd.startDist - bb.yLeft) : ℤ) : ℚ)
  let len3 := len2 + ((min d.axis.yRight (sd.endDist - bb.yRight) : ℤ) : ℚ)
  sd.dimWithoutTitle +
    (if ¬sd.widgetTitleIsEmpty then
      sd.widgetTitleHeightForWidth (qwtFloor len3)
     else 0)

/-- Candidate dimension for a vertical axis (`yLeft`/`yRight`); reads
the title accumulator updated earlier in the same loop body. -/
def vAxisCandidate (st : PrivateData) (options : Options) (rect : RectF)
    (d : Dims) (sd : AxisData) : ℤ :=
  let bb := backboneOffset st options
  let len0 : ℚ := rect.h - (d.axis.xTop : ℚ) - (d.axis.xBottom : ℚ) -
    ((sd.startDist + sd.endDist : ℤ) : ℚ) - 1
  let len1 := if d.axis.xBottom ≤ 0 then len0 - 1 else len0
  let len2 := if d.axis.xTop ≤ 0 then len1 - 1 else len1
  let len3 := if d.axis.xBottom > 0 then
      len2 + min st.layoutData.scale.xBottom.tickOffset
        ((sd.startDist - bb.xBottom : ℤ) : ℚ)
    else len2
  let len4 := if d.axis.xTop > 0 then
      len3 + min st.layoutData.scale.xTop.tickOffset
        ((sd.endDist - bb.xTop : ℤ) : ℚ)
    else len3
  let len5 := if d.title > 0 then len4 - ((d.title : ℚ) + st.spacing) else len4
  sd.dimWithoutTitle +
    (if ¬sd.widgetTitleIsEmpty then
      sd.widgetTitleHeightForWidth (qwtFloor len5)
     else 0)

/-- Title stage of the `while (!done)` body of `expandLineBreaks`. -/
def expandTitleStage (st : PrivateData) (options : Options) (rect : RectF)
    (d : Dims) : Dims :=
  if ¬options.ignoreTitle ∧ ¬st.layoutData.title.textIsEmpty then
    let c := labelCandidate st options rect d st.layoutData.title
    if c > d.title then { d with title := c } else d
  else d

/-- Footer stage of the loop body. -/
def expandFooterStage (st : PrivateData) (options : Options) (rect : RectF)
    (d : Dims) : Dims :=
  if ¬options.ignoreFooter ∧ ¬st.layoutData.footer.textIsEmpty then
    let c := labelCandidate st options rect d st.layoutData.footer
    if c > d.footer then { d with footer := c } else d
  else d

/-- `yLeft` stage of the loop body. -/
def expandYLeftStage (st : PrivateData) (options : Options) (rect : RectF)
    (d : Dims) : Dims :=
  if st.layoutData.scale.yLeft.isEnabled then
    let c := vAxisCandidate st options rect d st.layoutData.scale.yLeft
    if c > d.axis.yLeft then { d with axis.yLeft := c } else d
  else d

/-- `yRight` stage of the loop body. -/
def expandYRightStage (st : PrivateData) (options : Options) (rect : RectF)
    (d : Dims) : Dims :=
  if st.layoutData.scale.yRight.isEnabled then
    let c := vAxisCandidate st options rect d st.layoutData.scale.yRight
    if c > d.axis.yRight then { d with axis.yRight := c } else d
  else d

/-- `xBottom` stage of the loop body. -/
def expandXBottomStage (st : PrivateData) (options : Options) (rect : RectF)
    (d : Dims) : Dims :=
  if st.layoutData.scale.xBottom.isEnabled then
    let c := hAxisCandidate st options rect d st.layoutData.scale.xBottom
    if c > d.axis.xBottom then { d with axis.xBottom := c } else d
  else d

/-- `xTop` stage of the loop body. -/
def expandXTopStage (st : PrivateData) (options : Options) (rect : RectF)
    (d : Dims) : Dims :=
  if st.layoutData.scale.xTop.isEnabled then
    let c := hAxisCandidate st options rect d st.layoutData.scale.xTop
    if c > d.axis.xTop then { d with axis.xTop := c } else d
  else d

/-- One execution of the `while (!done)` body of `expandLineBreaks`:
title, footer, then the four axes in index order, each accumulator
raised to its candidate when the candidate is larger. -/
def stepExpand (st : PrivateData) (options : Options) (rect : RectF)
    (d : Dims) : Dims :=
  expandXTopStage st options rect
    (expandXBottomStage st options rect
      (expandYRightStage st options rect
        (expandYLeftStage st options rect
          (expandFooterStage st options rect
            (expandTitleStage st options rect d)))))

/-- The loop of `expandLineBreaks` reaches `d`: some iterate of the
body starting from zero equals `d`, and the body no longer changes `d`
(the `done` flag stays set). -/
def ExpandReaches (st : PrivateData) (options : Options) (rect : RectF)
    (d : Dims) : Prop :=
  ∃ n : ℕ, (stepExpand st options rect)^[n] Dims.zero = d ∧
    stepExpand st options rect d = d

/-!
`QwtPlotLayout::alignScales`
-/

/-- Canvas rectangle and scale rectangles, the in/out data of
`alignScales`. -/
structure AlignData where
  canvas : RectF
  scales : Vec4 RectF
deriving DecidableEq, Repr

/-- Bottom-side part of the first-pass body for a vertical axis:
adjust the axis rectangle's bottom against the bottom scale, or move
the canvas bottom when that border is aligned to the scale and the
axis needs more room; returns `(canvasRect, axisRect)`. -/
def alignVertBottom (st : PrivateData) (options : Options) (endDist : ℤ)
    (canvas axisRect bottomScaleRect : RectF) : RectF × RectF :=
  let bb := backboneOffset st options
  let bottomOffset := bb.xBottom - endDist + 1
  if bottomScaleRect.isValid then
    let dy : ℚ := (bottomOffset : ℚ) + bottomScaleRect.h
    if st.alignCanvasToScales.xBottom ∧ dy < 0 then
      (canvas.setBottom (min canvas.bottom (axisRect.bottom + dy)), axisRect)
    else
      let maxBottom := bottomScaleRect.top +
        st.layoutData.scale.xBottom.tickOffset
      (canvas,
       axisRect.setBottom (min (axisRect.bottom - bottomOffset) maxBottom))
  else
    if st.alignCanvasToScales.xBottom ∧ bottomOffset < 0 then
      (canvas.setBottom (min canvas.bottom (axisRect.bottom + bottomOffset)),
       axisRect)
    else if bottomOffset > 0 then
      (canvas, axisRect.setBottom (axisRect.bottom - bottomOffset))
    else (canvas, axisRect)

/-- Top-side part of the first-pass body for a vertical axis. -/
def alignVertTop (st : PrivateData) (options : Options) (startDist : ℤ)
    (canvas axisRect topScaleRect : RectF) : RectF × RectF :=
  let bb := backboneOffset st options
  let topOffset := bb.xTop - startDist
  if topScaleRect.isValid then
    let dy : ℚ := (topOffset : ℚ) + topScaleRect.h
    if st.alignCanvasToScales.xTop ∧ dy < 0 then
      (canvas.setTop (max canvas.top (axisRect.top - dy)), axisRect)
    else
      let minTop := topScaleRect.bottom - st.layoutData.scale.xTop.tickOffset
      (canvas, axisRect.setTop (max (axisRect.top + topOffset) minTop))
  else
    if st.alignCanvasToScales.xTop ∧ topOffset < 0 then
      (canvas.setTop (max canvas.top (axisRect.top - topOffset)), axisRect)
    else if topOffset > 0 then
      (canvas, axisRect.setTop (axisRect.top + topOffset))
    else (canvas, axisRect)

/-- First-pass body of `alignScales` for a vertical axis
(`yLeft`/`yRight`): the bottom-side part followed by the top-side
part. -/
def alignVertStep (st : PrivateData) (options : Options)
    (startDist endDist : ℤ) (canvas axisRect bottomScaleRect topScaleRect :
    RectF) : RectF × RectF :=
  let p1 := alignVertBottom st options endDist canvas axisRect bottomScaleRect
  alignVertTop st options startDist p1.1 p1.2 topScaleRect

/-- Left-side part of the first-pass body for a horizontal axis. -/
def alignHorzLeft (st : PrivateData) (options : Options) (startDist : ℤ)
    (canvas axisRect leftScaleRect : RectF) : RectF × RectF :=
  let bb := backboneOffset st options
  let leftOffset := bb.yLeft - startDist
  if leftScaleRect.isValid then
    let dx : ℚ := (leftOffset : ℚ) + leftScaleRect.w
    if st.alignCanvasToScales.yLeft ∧ dx < 0 then
      (canvas.setLeft (max canvas.left (axisRect.left - dx)), axisRect)
    else
      (canvas,
       axisRect.setLeft (max (axisRect.left + leftOffset) leftScaleRect.left))
  else
    if st.alignCanvasToScales.yLeft ∧ leftOffset < 0 then
      (canvas.setLeft (max canvas.left (axisRect.left - leftOffset)),
       axisRect)
    else if leftOffset > 0 then
      (canvas, axisRect.setLeft (axisRect.left + leftOffset))
    else (canvas, axisRect)

/-- Right-side part of the first-pass body for a horizontal axis.  The
source clips the axis rectangle here even when the canvas edge
moved. -/
def alignHorzRight (st : PrivateData) (options : Options) (endDist : ℤ)
    (canvas axisRect rightScaleRect : RectF) : RectF × RectF :=
  let bb := backboneOffset st options
  let rightOffset := bb.yRight - endDist + 1
  if rightScaleRect.isValid then
    let dx : ℚ := (rightOffset : ℚ) + rightScaleRect.w
    let canvas2 :=
      if st.alignCanvasToScales.yRight ∧ dx < 0 then
        canvas.setRight (min canvas.right (axisRect.right + dx))
      else canvas
    (canvas2,
     axisRect.setRight (min (axisRect.right - rightOffset)
       rightScaleRect.right))
  else
    if st.alignCanvasToScales.yRight ∧ rightOffset < 0 then
      (canvas.setRight (min canvas.right (axisRect.right + rightOffset)),
       axisRect)
    else if rightOffset > 0 then
      (canvas, axisRect.setRight (axisRect.right - rightOffset))
    else (canvas, axisRect)

/-- First-pass body of `alignScales` for a horizontal axis
(`xTop`/`xBottom`): the left-side part followed by the right-side
part. -/
def alignHorzStep (st : PrivateData) (options : Options)
    (startDist endDist : ℤ) (canvas axisRect leftScaleRect rightScaleRect :
    RectF) : RectF × RectF :=
  let p1 := alignHorzLeft st options startDist canvas axisRect leftScaleRect
  alignHorzRight st options endDist p1.1 p1.2 rightScaleRect

/-- First-pass stage of `alignScales` for the `yLeft` axis. -/
def alignPass1YLeft (st : PrivateData) (options : Options)
    (A : AlignData) : AlignData :=
  if A.scales.yLeft.isValid then
    let p := alignVertStep st options st.layoutData.scale.yLeft.startDist
      st.layoutData.scale.yLeft.endDist A.canvas A.scales.yLeft
      A.scales.xBottom A.scales.xTop
    { canvas := p.1, scales := { A.scales with yLeft := p.2 } }
  else A

/-- First-pass stage of `alignScales` for the `yRight` axis. -/
def alignPass1YRight (st : PrivateData) (options : Options)
    (A : AlignData) : AlignData :=
  if A.scales.yRight.isValid then
    let p := alignVertStep st options st.layoutData.scale.yRight.startDist
      st.layoutData.scale.yRight.endDist A.canvas A.scales.yRight
      A.scales.xBottom A.scales.xTop
    { canvas := p.1, scales := { A.scales with yRight := p.2 } }
  else A

/-- First-pass stage of `alignScales` for the `xBottom` axis. -/
def alignPass1XBottom (st : PrivateData) (options : Options)
    (A : AlignData) : AlignData :=
  if A.scales.xBottom.isValid then
    let p := alignHorzStep st options st.layoutData.scale.xBottom.startDist
      st.layoutData.scale.xBottom.endDist A.canvas A.scales.xBottom
      A.scales.yLeft A.scales.yRight
    { canvas := p.1, scales := { A.scales with xBottom := p.2 } }
  else A

/-- First-pass stage of `alignScales` for the `xTop` axis. -/
def alignPass1XTop (st : PrivateData) (options : Options)
    (A : AlignData) : AlignData :=
  if A.scales.xTop.isValid then
    let p := alignHorzStep st options st.layoutData.scale.xTop.startDist
      st.layoutData.scale.xTop.endDist A.canvas A.scales.xTop
      A.scales.yLeft A.scales.yRight
    { canvas := p.1, scales := { A.scales with xTop := p.2 } }
  else A

/-- First pass of `alignScales`: the four axes in index order, each
skipped when its rectangle is invalid. -/
def alignScalesPass1 (st : PrivateData) (options : Options)
    (A : AlignData) : AlignData :=
  alignPass1XTop st options (alignPass1XBottom st options
    (alignPass1YRight st options (alignPass1YLeft st options A)))

/-- Second-pass body of `alignScales` for a horizontal axis: track the
(possibly moved) canvas edges on the aligned borders. -/
def alignPass2Horz (st : PrivateData) (options : Options) (canvas : RectF)
    (sd : AxisData) (selfAlign isXTop : Bool) (sRect : RectF) : RectF :=
  let s1 :=
    if st.alignCanvasToScales.yLeft then
      sRect.setLeft (canvas.left - (sd.startDist : ℚ) +
        (if ¬options.ignoreFrames then
          (st.layoutData.contentsMargins.yLeft : ℚ) else 0))
    else sRect
  let s2 :=
    if st.alignCanvasToScales.yRight then
      s1.setRight (canvas.right - 1 + (sd.endDist : ℚ) -
        (if ¬options.ignoreFrames then
          (st.layoutData.contentsMargins.yRight : ℚ) else 0))
    else s1
  if selfAlign then
    if isXTop then s2.setBottom canvas.top else s2.setTop canvas.bottom
  else s2

/-- Second-pass body of `alignScales` for a vertical axis. -/
def alignPass2Vert (st : PrivateData) (options : Options) (canvas : RectF)
    (sd : AxisData) (selfAlign isYLeft : Bool) (sRect : RectF) : RectF :=
  let s1 :=
    if st.alignCanvasToScales.xTop then
      sRect.setTop (canvas.top - (sd.startDist : ℚ) +
        (if ¬options.ignoreFrames then
          (st.layoutData.contentsMargins.xTop : ℚ) else 0))
    else sRect
  let s2 :=
    if st.alignCanvasToScales.xBottom then
      s1.setBottom (canvas.bottom - 1 + (sd.endDist : ℚ) -
        (if ¬options.ignoreFrames then
          (st.layoutData.contentsMargins.xBottom : ℚ) else 0))
    else s1
  if selfAlign then
    if isYLeft then s2.setRight canvas.left else s2.setLeft canvas.right
  else s2

/-- Second pass of `alignScales`: realign the remaining scales to the
updated canvas rectangle. -/
def alignScalesPass2 (st : PrivateData) (options : Options)
    (A : AlignData) : AlignData :=
  let s := A.scales
  let s0 :=
    if s.yLeft.isValid then
      { s with yLeft := (alignPass2Vert st options A.canvas
          st.layoutData.scale.yLeft st.alignCanvasToScales.yLeft true s.yLeft) }
    else s
  let s1 :=
    if s0.yRight.isValid then
      { s0 with yRight := (alignPass2Vert st options A.canvas
          st.layoutData.scale.yRight st.alignCanvasToScales.yRight false
          s0.yRight) }
    else s0
  let s2 :=
    if s1.xBottom.isValid then
      { s1 with xBottom := (alignPass2Horz st options A.canvas
          st.layoutData.scale.xBottom st.alignCanvasToScales.xBottom false
          s1.xBottom) }
    else s1
  let s3 :=
    if s2.xTop.isValid then
      { s2 with xTop := (alignPass2Horz st options A.canvas
          st.layoutData.scale.xTop st.alignCanvasToScales.xTop true s2.xTop) }
    else s2
  { A with scales := s3 }

/-- `QwtPlotLayout::alignScales`. -/
def alignScales (st : PrivateData) (options : Options) (A : AlignData) :
    AlignData :=
  alignScalesPass2 st options (alignScalesPass1 st options A)

/-!
`QwtPlotLayout::activate`
-/

/-- The legend block of `activate`: place the legend, subtract its
footprint (through the integer region subtraction) from the working
rectangle, then leave one `spacing` gap on the facing edge. -/
def placeLegendBlock (st : PrivateData) (plot : Plot) (options : Options)
    (rect : RectF) : PrivateData × RectF :=
  if ¬options.ignoreLegend ∧ plot.hasLegend ∧ ¬plot.legend.isEmptyB then
    let L := layoutLegend st options rect
    let rect1 := (regionSubtractedBounding rect.toRect L.toRect).toRectF
    let rect2 :=
      if st.legendPos = LeftLegend then
        rect1.setLeft (rect1.left + (st.spacing : ℚ))
      else if st.legendPos = RightLegend then
        rect1.setRight (rect1.right - (st.spacing : ℚ))
      else if st.legendPos = TopLegend then
        rect1.setTop (rect1.top + (st.spacing : ℚ))
      else if st.legendPos = BottomLegend then
        rect1.setBottom (rect1.bottom - (st.spacing : ℚ))
      else rect1
    ({ st with legendRect := L }, rect2)
  else (st, rect)

/-- Everything `activate` does before `expandLineBreaks`: invalidate
the output rectangles, capture the layout data, place the legend. -/
def activatePre (st : PrivateData) (plot : Plot) (plotRect : RectF)
    (options : Options) : PrivateData × RectF :=
  let st0 := invalidate st
  let st1 := { st0 with layoutData := dataInit plot plotRect st0.layoutData }
  placeLegendBlock st1 plot options plotRect

/-- The title block of `activate`: assign the band at the top of the
working rectangle, re-centered over the canvas when exactly one y axis
is enabled, and shrink the working rectangle. -/
def placeTitle (st : PrivateData) (rect : RectF) (d : Dims) :
    PrivateData × RectF :=
  if d.title > 0 then
    let tr0 : RectF := ⟨rect.x, rect.y, rect.w, (d.title : ℚ)⟩
    let rect' := rect.setTop (tr0.bottom + (st.spacing : ℚ))
    let tr :=
      if st.layoutData.scale.yLeft.isEnabled ≠
          st.layoutData.scale.yRight.isEnabled then
        (tr0.setX (rect'.left + (d.axis.yLeft : ℚ))).setWidth
          (rect'.w - (d.axis.yLeft : ℚ) - (d.axis.yRight : ℚ))
      else tr0
    ({ st with titleRect := tr }, rect')
  else (st, rect)

/-- The footer block of `activate`. -/
def placeFooter (st1 : PrivateData) (rect1 : RectF) (d : Dims) :
    PrivateData × RectF :=
  if d.footer > 0 then
    let fr0 : RectF :=
      ⟨rect1.x, rect1.bottom - (d.footer : ℚ), rect1.w, (d.footer : ℚ)⟩
    let rect2 := rect1.setBottom (fr0.top - (st1.spacing : ℚ))
    let fr :=
      if st1.layoutData.scale.yLeft.isEnabled ≠
          st1.layoutData.scale.yRight.isEnabled then
        (fr0.setX (rect2.left + (d.axis.yLeft : ℚ))).setWidth
          (rect2.w - (d.axis.yLeft : ℚ) - (d.axis.yRight : ℚ))
      else fr0
    ({ st1 with footerRect := fr }, rect2)
  else (st1, rect1)

/-- The title block followed by the footer block. -/
def placeTitleFooter (st : PrivateData) (rect : RectF) (d : Dims) :
    PrivateData × RectF :=
  let p1 := placeTitle st rect d
  placeFooter p1.1 p1.2 d

/-- The canvas rectangle of `activate`: working rectangle minus the
four axis dimensions. -/
def computeCanvasRect (rect : RectF) (d : Dims) : RectF :=
  ⟨rect.x + (d.axis.yLeft : ℚ), rect.y + (d.axis.xTop : ℚ),
   rect.w - (d.axis.yRight : ℚ) - (d.axis.yLeft : ℚ),
   rect.h - (d.axis.xBottom : ℚ) - (d.axis.xTop : ℚ)⟩

/-- The initial scale rectangles of `activate`: the canvas slab
extruded outward by each axis dimension, normalized; an axis with
dimension zero keeps its (invalidated) rectangle. -/
def initialScaleRects (st1 : PrivateData) (canvas0 : RectF) (d : Dims) :
    Vec4 RectF :=
  ⟨if d.axis.yLeft ≠ 0 then
     (((canvas0.setX (canvas0.left - (d.axis.yLeft : ℚ)))).setWidth
       (d.axis.yLeft : ℚ)).normalized
   else st1.scaleRect.yLeft,
   if d.axis.yRight ≠ 0 then
     ((canvas0.setX canvas0.right).setWidth (d.axis.yRight : ℚ)).normalized
   else st1.scaleRect.yRight,
   if d.axis.xBottom ≠ 0 then
     ((canvas0.setY canvas0.bottom).setHeight (d.axis.xBottom : ℚ)).normalized
   else st1.scaleRect.xBottom,
   if d.axis.xTop ≠ 0 then
     (((canvas0.setY (canvas0.top - (d.axis.xTop : ℚ)))).setHeight
       (d.axis.xTop : ℚ)).normalized
   else st1.scaleRect.xTop⟩

/-- Everything `activate` does after `expandLineBreaks`, given the
dimensions the loop produced. -/
def activatePost (st : PrivateData) (options : Options) (rect : RectF)
    (d : Dims) : PrivateData :=
  let p := placeTitleFooter st rect d
  let st1 := p.1
  let rect1 := p.2
  let canvas0 := computeCanvasRect rect1 d
  let A := alignScales st1 options ⟨canvas0, initialScaleRects st1 canvas0 d⟩
  let st2 := { st1 with canvasRect := A.canvas, scaleRect := A.scales }
  if ¬st2.legendRect.isEmpty then
    { st2 with legendRect := alignLegend st2 A.canvas st2.legendRect }
  else st2

/-- `QwtPlotLayout::activate` as a relation between the state before
the call and the state after it: the expand loop must have stabilized
at some accumulator value `d`, and the rest of the pass is the
function `activatePost`. -/
def ActivateRel (st : PrivateData) (plot : Plot) (plotRect : RectF)
    (options : Options) (stOut : PrivateData) : Prop :=
  ∃ d : Dims,
    ExpandReaches (activatePre st plot plotRect options).1 options
      (activatePre st plot plotRect options).2 d ∧
    stOut = activatePost (activatePre st plot plotRect options).1 options
      (activatePre st plot plotRect options).2 d

/-!
Concrete sample data used to instantiate the theorems below.
-/

/-- A legend widget that answers every query with zero. -/
def zeroLegendWidget : LegendWidget :=
  ⟨true, 0, 0, 0, 0, 0, fun _ => 0⟩

/-- A text label with empty text and zero metrics. -/
def zeroTextLabel : TextLabel :=
  ⟨true, false, fun _ => 0, fun _ => 0, 0, fun _ => 0⟩

/-- A scale widget that answers every query with zero. -/
def zeroScaleWidget : ScaleWidget :=
  ⟨0, 0, 0, false, 0, fun _ => 0, true, fun _ => 0, 0, 0, 0, 0⟩

/-- All-zero captured legend data. -/
def zeroLegendData : LegendData := ⟨0, 0, 0, 0, 0⟩

/-- Captured data of an absent label. -/
def emptyLabelData : LabelData := ⟨true, emptyTextHfw, 0⟩

/-- Captured data of a disabled axis. -/
def zeroAxisData : AxisData := ⟨false, true, fun _ => 0, 0, 0, 0, 0, 0⟩

/-- All-empty captured layout data. -/
def emptyLayoutData : LayoutData :=
  ⟨zeroLegendData, emptyLabelData, emptyLabelData, Vec4.const zeroAxisData,
   Vec4.const 0⟩

/-- The state the `QwtPlotLayout` constructor builds: bottom legend with
ratio 0.33, canvas margin 4 everywhere, no align-to-scale, spacing 5,
all output rectangles invalidated. -/
def baseState : PrivateData :=
  { titleRect := RectF.zero
    footerRect := RectF.zero
    legendRect := RectF.zero
    scaleRect := Vec4.const RectF.zero
    canvasRect := RectF.zero
    layoutData := emptyLayoutData
    legendPos := BottomLegend
    legendRatio := 33/100
    spacing := 5
    canvasMargin := Vec4.const 4
    alignCanvasToScales := Vec4.const false }

/-- Left scale widget of the `minimumSizeHint` scenario: minimum size
40×50, start border-distance hint 20, end hint 0. -/
def mshYLeftWidget : ScaleWidget :=
  { zeroScaleWidget with
    minimumSizeHintW := 40
    minimumSizeHintH := 50
    borderDistHintLeft := 20
    borderDistHintRight := 0 }

/-- Top scale widget of the `minimumSizeHint` scenario: minimum size
60×30, tick offset 10, border-distance hints 0. -/
def mshXTopWidget : ScaleWidget :=
  { zeroScaleWidget with
    minimumSizeHintW := 60
    minimumSizeHintH := 30
    margin := 10 }

/-- Plot of the `minimumSizeHint` scenario: only the `yLeft` and `xTop`
axes enabled, no legend, no title, no footer, zero canvas margins. -/
def mshPlot : Plot :=
  { hasLegend := false
    legend := zeroLegendWidget
    hasTitleLabel := false
    titleLabel := zeroTextLabel
    hasFooterLabel := false
    footerLabel := zeroTextLabel
    axisEnabled := ⟨true, false, false, true⟩
    axisWidget := ⟨mshYLeftWidget, zeroScaleWidget, zeroScaleWidget,
      mshXTopWidget⟩
    contentsMarginLeft := 0
    contentsMarginTop := 0
    contentsMarginRight := 0
    contentsMarginBottom := 0
    canvasMinW := 0
    canvasMinH := 0 }

/-- The raw (pre-correction) scale data `minimumSizeHint` gathers for
`mshPlot`. -/
def mshRawData : Vec4 MshScale :=
  ⟨mshGatherAxis mshYLeftWidget true,
   mshGatherAxis zeroScaleWidget false,
   mshGatherAxis zeroScaleWidget false,
   mshGatherAxis mshXTopWidget true⟩

/-- A right-legend state with ratio 0.4 and a captured legend hint of
width 0, for the negative-width `layoutLegend` scenario. -/
def ratioCapState : PrivateData :=
  { baseState with
    legendPos := RightLegend
    legendRatio := 2/5 }

/-- Rectangle with a negative width, as a caller may pass. -/
def negWidthRect : RectF := ⟨0, 0, -21/2, 100⟩

/-- A right-legend state with ratio 0.4 and a captured legend hint of
width 100. -/
def ratioCapWideState : PrivateData :=
  { baseState with
    legendPos := RightLegend
    legendRatio := 2/5
    layoutData := { emptyLayoutData with legend := ⟨0, 0, 0, 100, 0⟩ } }

/-- State for the scale-alignment scenario: canvas aligned to the
bottom scale. -/
def alignBottomState : PrivateData :=
  { baseState with alignCanvasToScales := ⟨false, false, true, false⟩ }

/-- A plot with no legend, no labels and no axes. -/
def quietPlot : Plot :=
  { hasLegend := false
    legend := zeroLegendWidget
    hasTitleLabel := false
    titleLabel := zeroTextLabel
    hasFooterLabel := false
    footerLabel := zeroTextLabel
    axisEnabled := Vec4.const false
    axisWidget := Vec4.const zeroScaleWidget
    contentsMarginLeft := 0
    contentsMarginTop := 0
    contentsMarginRight := 0
    contentsMarginBottom := 0
    canvasMinW := 0
    canvasMinH := 0 }

/-- Plot rectangle of the idempotence scenario. -/
def idemRect : RectF := ⟨0, 0, 200, 150⟩

/-- The state after one `activate` pass over `quietPlot`. -/
def idemFirstRun : PrivateData :=
  activatePost (activatePre baseState quietPlot idemRect Options.none).1
    Options.none (activatePre baseState quietPlot idemRect Options.none).2
    Dims.zero

/-- The state after a second identical `activate` pass. -/
def idemSecondRun : PrivateData :=
  activatePost (activatePre idemFirstRun quietPlot idemRect Options.none).1
    Options.none (activatePre idemFirstRun quietPlot idemRect Options.none).2
    Dims.zero

/-- Plot rectangle of the non-overlap scenario, written with integer
coordinates. -/
def nonoverlapRect : RectF :=
  ⟨((0 : ℤ) : ℚ), ((0 : ℤ) : ℚ), ((200 : ℤ) : ℚ), ((150 : ℤ) : ℚ)⟩

/-- The state after an `activate` pass over `quietPlot` on the
integer-coordinate rectangle. -/
def nonoverlapRun : PrivateData :=
  activatePost
    (activatePre baseState quietPlot nonoverlapRect Options.none).1
    Options.none
    (activatePre baseState quietPlot nonoverlapRect Options.none).2
    Dims.zero

/-- Captured layout data whose measurement callbacks report a height
that grows one-for-one as the available width shrinks: title text with
`heightForWidth w = 1000 - w`, and an enabled `yLeft` axis carrying a
title with `titleHeightForWidth len = 1000 - len` over a base
thickness of 10. -/
def expandRunawayState : PrivateData :=
  { baseState with
    layoutData :=
      { emptyLayoutData with
        title := ⟨false, fun w => 1000 - w, 0⟩
        scale := ⟨⟨true, false, fun len => 1000 - len, 0, 0, 0, 0, 10⟩,
          zeroAxisData, zeroAxisData, zeroAxisData⟩ } }

/-- Bounding rectangle of the runaway expansion scenario. -/
def runawayRect : RectF := ⟨0, 0, 100, 100⟩

/-- Right-legend state with ratio 0.5 and spacing 0. -/
def overlapState : PrivateData :=
  { baseState with
    legendPos := RightLegend
    legendRatio := 1/2
    spacing := 0 }

/-- Plot with a non-empty legend of size hint 30×50 and nothing else. -/
def overlapPlot : Plot :=
  { quietPlot with
    hasLegend := true
    legend := ⟨false, 0, 0, 0, 30, 50, fun _ => 50⟩ }

/-- A plot rectangle with fractional width 100.6. -/
def overlapRect : RectF := ⟨0, 0, 503/5, 100⟩

/-- The state after `activate` on `overlapPlot` over `overlapRect`. -/
def overlapOut : PrivateData :=
  activatePost (activatePre overlapState overlapPlot overlapRect
      Options.none).1 Options.none
    (activatePre overlapState overlapPlot overlapRect Options.none).2
    Dims.zero

/-- Separation between the legend rectangle and the working rectangle
after the legend block: the legend has no interior, or the working
rectangle is degenerate, or — according to the legend position's
orientation — the working rectangle lies entirely on one side of the
legend. -/
def LegendSep (st1 : PrivateData) (rect1 : RectF) : Prop :=
  st1.legendRect.isEmpty = true ∨
  rect1.w ≤ 0 ∨ rect1.h ≤ 0 ∨
  ((st1.legendPos = LeftLegend ∨ st1.legendPos = RightLegend) ∧
    (rect1.x + rect1.w ≤ st1.legendRect.x ∨
      st1.legendRect.x + st1.legendRect.w ≤ rect1.x)) ∨
  ((st1.legendPos = BottomLegend ∨ st1.legendPos = TopLegend) ∧
    (rect1.y + rect1.h ≤ st1.legendRect.y ∨
      st1.legendRect.y + st1.legendRect.h ≤ rect1.y))

/-- Containment of canvas rectangles: every edge of the first lies on
or inside the corresponding edge of the second. -/
def canvasLe (c1 c2 : RectF) : Prop :=
  c2.x ≤ c1.x ∧ c1.x + c1.w ≤ c2.x + c2.w ∧ c2.y ≤ c1.y ∧
    c1.y + c1.h ≤ c2.y + c2.h

/-- Sum of the six accumulators. -/
def sumDims (d : Dims) : ℤ :=
  d.title + d.footer + d.axis.yLeft + d.axis.yRight + d.axis.xBottom +
    d.axis.xTop

/-- All six accumulators bounded above by `M`. -/
def Dims.bounded (d : Dims) (M : ℤ) : Prop :=
  d.title ≤ M ∧ d.footer ≤ M ∧ d.axis.yLeft ≤ M ∧ d.axis.yRight ≤ M ∧
    d.axis.xBottom ≤ M ∧ d.axis.xTop ≤ M

/-- The candidate dimensions computed inside the loop body (title and
footer heights, axis thicknesses) are bounded above by `B`, whatever
the current accumulator values. -/
def CandidatesBounded (st : PrivateData) (options : Options) (rect : RectF)
    (B : ℤ) : Prop :=
  (∀ d : Dims, labelCandidate st options rect d st.layoutData.title ≤ B) ∧
  (∀ d : Dims, labelCandidate st options rect d st.layoutData.footer ≤ B) ∧
  (∀ d : Dims, vAxisCandidate st options rect d st.layoutData.scale.yLeft
    ≤ B) ∧
  (∀ d : Dims, vAxisCandidate st options rect d st.layoutData.scale.yRight
    ≤ B) ∧
  (∀ d : Dims, hAxisCandidate st options rect d st.layoutData.scale.xBottom
    ≤ B) ∧
  (∀ d : Dims, hAxisCandidate st options rect d st.layoutData.scale.xTop
    ≤ B)

/-!
Helper lemmas about the rectangle operations.
-/

theorem bottom_setTop (r : RectF) (v : ℚ) :
    (r.setTop v).bottom = r.bottom := by
  simp [RectF.setTop, RectF.bottom]

theorem bottom_setBottom (r : RectF) (v : ℚ) :
    (r.setBottom v).bottom = v := by
  simp [RectF.setBottom, RectF.bottom]

theorem top_setBottom (r : RectF) (v : ℚ) :
    (r.setBottom v).top = r.top := by
  simp [RectF.setBottom, RectF.top]

theorem top_setTop (r : RectF) (v : ℚ) :
    (r.setTop v).top = v := by
  simp [RectF.setTop, RectF.top]

theorem left_setLeft (r : RectF) (v : ℚ) :
    (r.setLeft v).left = v := by
  simp [RectF.setLeft, RectF.left]

theorem right_setLeft (r : RectF) (v : ℚ) :
    (r.setLeft v).right = r.right := by
  simp [RectF.setLeft, RectF.right]

theorem left_setRight (r : RectF) (v : ℚ) :
    (r.setRight v).left = r.left := by
  simp [RectF.setRight, RectF.left]

theorem right_setRight (r : RectF) (v : ℚ) :
    (r.setRight v).right = v := by
  simp [RectF.setRight, RectF.right]

/-- The top-side part of the vertical first-pass body never moves the
bottom edge of the canvas rectangle or of the axis rectangle: every
branch applies `setTop` (or nothing), which preserves `bottom`. -/
theorem alignVertTop_bottoms (st : PrivateData) (options : Options)
    (sd : ℤ) (c a t : RectF) :
    (alignVertTop st options sd c a t).1.bottom = c.bottom ∧
    (alignVertTop st options sd c a t).2.bottom = a.bottom := by
  simp only [alignVertTop]
  split_ifs <;> simp [bottom_setTop]

/-!
Theorems for the claims.
-/

/-- C7: for every ratio value `r`, with the stored legend position one
of the four legend positions (the only values the C++ enum field ever
holds), `setLegendRatio r` followed by `legendRatio()` returns `r`
exactly when `r ∈ (0, 1]`, returns the position-specific default
(0.33 for top/bottom, 0.5 for left/right) when `r ≤ 0`, and returns 1
when `r > 1`. -/
theorem setLegendRatio_roundtrip (st : PrivateData) (r : ℚ)
    (hpos : st.legendPos = LeftLegend ∨ st.legendPos = RightLegend ∨
      st.legendPos = BottomLegend ∨ st.legendPos = TopLegend) :
    (0 < r ∧ r ≤ 1 → legendRatio (setLegendRatio st r) = r) ∧
    (r ≤ 0 → legendRatio (setLegendRatio st r) =
      (if st.legendPos = TopLegend ∨ st.legendPos = BottomLegend
       then 33/100 else 1/2)) ∧
    (1 < r → legendRatio (setLegendRatio st r) = 1) := by
  refine ⟨fun hr => ?_, fun hr => ?_, fun hr => ?_⟩ <;>
    simp only [legendRatio, setLegendRatio, setLegendPosition, LeftLegend,
      RightLegend, BottomLegend, TopLegend] at * <;>
    rcases hpos with h | h | h | h <;>
    rw [h] <;> norm_num <;> split_ifs <;>
    first | rfl | linarith | (intro hx; linarith)

/-- Witness for C7 at the base state (bottom legend) and ratio 3/4. -/
theorem setLegendRatio_roundtrip_witness :
    (0 < (3/4 : ℚ) ∧ (3/4 : ℚ) ≤ 1 →
      legendRatio (setLegendRatio baseState (3/4)) = 3/4) ∧
    ((3/4 : ℚ) ≤ 0 → legendRatio (setLegendRatio baseState (3/4)) =
      (if baseState.legendPos = TopLegend ∨ baseState.legendPos = BottomLegend
       then 33/100 else 1/2)) ∧
    (1 < (3/4 : ℚ) → legendRatio (setLegendRatio baseState (3/4)) = 1) :=
  setLegendRatio_roundtrip baseState (3/4) (Or.inr (Or.inr (Or.inl rfl)))

/-- C8: for every margin `m < -1`, `setCanvasMargin m (-1)` stores
exactly `-1` for all four axes, and `setCanvasMargin m a` for a valid
axis `a` stores `-1` at `a` while every other axis reads back
unchanged. -/
theorem setCanvasMargin_clamp (st : PrivateData) (m : ℤ) (hm : m < -1) :
    (∀ b : ℤ, 0 ≤ b → b < 4 →
      canvasMargin (setCanvasMargin st m (-1)) b = -1) ∧
    ∀ a : ℤ, 0 ≤ a → a < 4 →
      canvasMargin (setCanvasMargin st m a) a = -1 ∧
      ∀ b : ℤ, b ≠ a →
        canvasMargin (setCanvasMargin st m a) b = canvasMargin st b := by
  have hm1 : (if m < -1 then (-1 : ℤ) else m) = -1 := if_pos hm
  constructor
  · intro b hb0 hb4
    interval_cases b <;>
      simp [canvasMargin, setCanvasMargin, hm1, Vec4.const, Vec4.get]
  · intro a ha0 ha4
    constructor
    · interval_cases a <;>
        simp [canvasMargin, setCanvasMargin, hm1, Vec4.setAt, Vec4.get]
    · intro b hb
      interval_cases a <;>
        simp only [canvasMargin, setCanvasMargin, hm1, Vec4.setAt, Vec4.get] <;>
        norm_num <;> split_ifs <;> simp_all

/-- Witness for C8 at the base state and margin `-5`. -/
theorem setCanvasMargin_clamp_witness :
    (∀ b : ℤ, 0 ≤ b → b < 4 →
      canvasMargin (setCanvasMargin baseState (-5) (-1)) b = -1) ∧
    ∀ a : ℤ, 0 ≤ a → a < 4 →
      canvasMargin (setCanvasMargin baseState (-5) a) a = -1 ∧
      ∀ b : ℤ, b ≠ a →
        canvasMargin (setCanvasMargin baseState (-5) a) b =
          canvasMargin baseState b :=
  setCanvasMargin_clamp baseState (-5) (by decide)

/-- C9: for every axis index outside `{0, 1, 2, 3}`, `canvasMargin`
returns 0, `alignCanvasToScale` returns false, and `setCanvasMargin`
with that specific index (other than the apply-to-all value `-1`) and
`setAlignCanvasToScale` leave the state unchanged. -/
theorem invalid_axis_neutral (st : PrivateData) (ax : ℤ)
    (hax : ax < 0 ∨ 4 ≤ ax) (m : ℤ) (b : Bool) :
    canvasMargin st ax = 0 ∧
    alignCanvasToScale st ax = false ∧
    (ax ≠ -1 → setCanvasMargin st m ax = st) ∧
    setAlignCanvasToScale st ax b = st := by
  refine ⟨?_, ?_, fun hne => ?_, ?_⟩
  · simp [canvasMargin, hax]
  · simp [alignCanvasToScale, hax]
  · simp only [setCanvasMargin]
    rw [if_neg hne, if_neg (by omega)]
  · simp only [setAlignCanvasToScale]
    rw [if_neg (by omega)]

/-- Witness for C9 at the base state, axis index 7. -/
theorem invalid_axis_neutral_witness :
    canvasMargin baseState 7 = 0 ∧
    alignCanvasToScale baseState 7 = false ∧
    ((7 : ℤ) ≠ -1 → setCanvasMargin baseState 3 7 = baseState) ∧
    setAlignCanvasToScale baseState 7 true = baseState :=
  invalid_axis_neutral baseState 7 (by decide) 3 true

/-- C10: for every position value that is not one of the four legend
positions, `setLegendPosition pos ratio` leaves both the stored legend
position and the stored legend ratio unchanged, even for a ratio in
`(0, 1]`. -/
theorem setLegendPosition_invalid (st : PrivateData) (pos : ℤ) (ratio : ℚ)
    (hpos : pos ≠ LeftLegend ∧ pos ≠ RightLegend ∧ pos ≠ BottomLegend ∧
      pos ≠ TopLegend) :
    (setLegendPosition st pos ratio).legendPos = st.legendPos ∧
    (setLegendPosition st pos ratio).legendRatio = st.legendRatio := by
  obtain ⟨h0, h1, h2, h3⟩ := hpos
  simp only [setLegendPosition]
  rw [if_neg (by tauto), if_neg (by tauto)]
  exact ⟨rfl, rfl⟩

/-- Witness for C10 at the base state, position value 5, ratio 1/2. -/
theorem setLegendPosition_invalid_witness :
    (setLegendPosition baseState 5 (1/2)).legendPos = baseState.legendPos ∧
    (setLegendPosition baseState 5 (1/2)).legendRatio =
      baseState.legendRatio :=
  setLegendPosition_invalid baseState 5 (1/2) (by decide)

/-- C1, evaluated at the failing input: in the correction pass of
`minimumSizeHint` on `mshPlot` (left axis: height 50, start
border-distance hint 20, end hint 0; top axis: height 30, tick offset
10; canvas border allowance 5 on every side) the top-side correction of
the left axis fires because the guard tests `minLeft` (20 > 5) while
the shift amount uses `minRight - border = 0 - 5 = -5`; the left axis
height therefore grows from 50 to 55 even though the top-end border
distance (0) does not exceed the allowance, and the total minimum
height becomes 87 instead of the 82 the symmetric correction of the
claim yields. -/
theorem minimumSizeHint_corner_defect :
    mshRawData.yLeft.h = 50 ∧
    mshRawData.yLeft.minRight < (mshCanvasBorder baseState mshPlot).xTop ∧
    (mshCorrections (mshCanvasBorder baseState mshPlot) mshRawData).yLeft.h
      = 55 ∧
    minimumSizeHint baseState mshPlot = (102, 87) := by
  refine ⟨by decide, by decide, by decide, ?_⟩
  decide

/-- C3 counterexample: with a right legend, ratio 0.4, legend hint
width 0 and a rectangle of width −10.5 (negative widths reach
`layoutLegend` unnormalized), the hint width 0 exceeds
`0.4 × width = −4.2`, no scrollbar extent applies, yet the produced
legend width is `trunc(−4.2) = −4 > −4.2`: the claimed cap fails. -/
theorem layoutLegend_ratioCap_counterexample :
    ratioCapState.legendPos = RightLegend ∧
    ratioCapState.legendRatio = 2/5 ∧
    (ratioCapState.layoutData.legend.hintW : ℚ) > 2/5 * negWidthRect.w ∧
    ¬((layoutLegend ratioCapState Options.none negWidthRect).w ≤
        2/5 * negWidthRect.w +
        (if ¬Options.none.ignoreScrollbars ∧
            (ratioCapState.layoutData.legend.hintH : ℚ) > negWidthRect.h
         then (ratioCapState.layoutData.legend.hScrollExtent : ℚ) else 0)) := by
  refine ⟨rfl, rfl, ?_, ?_⟩
  · norm_num [ratioCapState, baseState, emptyLayoutData, zeroLegendData,
      negWidthRect]
  · have hc : ⌈(-(21/5) : ℚ)⌉ = (-4 : ℤ) := by
      rw [Int.ceil_eq_iff] <;> norm_num
    norm_num [layoutLegend, legendDim, ratioCapState, baseState,
      emptyLayoutData,
      zeroLegendData, negWidthRect, Options.none, cppToInt, RightLegend,
      LeftLegend, TopLegend, BottomLegend, RectF.setWidth, RectF.setX,
      RectF.setLeft, RectF.right, hc]

/-- C3 (amended): for every rectangle of nonnegative width, with
legend position `RightLegend`, legend ratio 0.4 and a captured legend
hint wider than `0.4 × rect.width`, the legend rectangle produced by
`layoutLegend` has width at most `0.4 × rect.width`, plus the
horizontal scroll extent exactly when the hint height exceeds the
rectangle height and `IgnoreScrollbars` is not set. -/
theorem layoutLegend_ratioCap (st : PrivateData) (options : Options)
    (rect : RectF) (hpos : st.legendPos = RightLegend)
    (hratio : st.legendRatio = 2/5) (hw : 0 ≤ rect.w)
    (hhint : (st.layoutData.legend.hintW : ℚ) > 2/5 * rect.w) :
    (layoutLegend st options rect).w ≤ 2/5 * rect.w +
      (if ¬options.ignoreScrollbars ∧
          (st.layoutData.legend.hintH : ℚ) > rect.h
       then (st.layoutData.legend.hScrollExtent : ℚ) else 0) := by
  have hcap : ((cppToInt (rect.w * st.legendRatio)) : ℚ) ≤ 2/5 * rect.w := by
    rw [hratio, cppToInt, if_pos (mul_nonneg hw (by norm_num))]
    calc ((⌊rect.w * (2/5)⌋ : ℤ) : ℚ) ≤ rect.w * (2/5) := Int.floor_le _
      _ = 2/5 * rect.w := by ring
  simp only [layoutLegend, legendDim, hpos, RightLegend, LeftLegend]
  norm_num [RectF.setWidth, RectF.setX, RectF.setLeft]
  split_ifs with hscroll
  · have hr := min_le_right ((st.layoutData.legend.hintW : ℤ) : ℚ)
      ((cppToInt (rect.w * st.legendRatio) : ℤ) : ℚ)
    linarith
  · have hr := min_le_right ((st.layoutData.legend.hintW : ℤ) : ℚ)
      ((cppToInt (rect.w * st.legendRatio) : ℤ) : ℚ)
    linarith

/-- Witness for the amended C3: right legend, ratio 0.4, hint width
100, rectangle `(0, 0, 10, 10)`. -/
theorem layoutLegend_ratioCap_witness :
    (layoutLegend ratioCapWideState Options.none ⟨0, 0, 10, 10⟩).w ≤
      2/5 * (RectF.mk 0 0 10 10).w +
      (if ¬Options.none.ignoreScrollbars ∧
          (ratioCapWideState.layoutData.legend.hintH : ℚ) >
            (RectF.mk 0 0 10 10).h
       then (ratioCapWideState.layoutData.legend.hScrollExtent : ℚ) else 0) :=
  layoutLegend_ratioCap ratioCapWideState Options.none ⟨0, 0, 10, 10⟩ rfl rfl
    (by norm_num)
    (by norm_num [ratioCapWideState, baseState, emptyLayoutData])

/-- C2: in the pass of `alignScales` over a vertical axis (the step
`alignVertStep` applied by `alignScalesPass1` to `yLeft` and
`yRight`), whenever the canvas is configured to align to the bottom
scale, the bottom scale rectangle is valid, and the axis's bottom-end
border distance exceeds the space provided by the bottom backbone
offset plus the bottom scale's height (`dy < 0`), the canvas
rectangle's bottom edge moves to `min(bottom, axisRect.bottom + dy)`
to accommodate the axis, and the axis rectangle's bottom edge is not
clipped. -/
theorem alignScales_bottom_accommodates (st : PrivateData)
    (options : Options) (startDist endDist : ℤ)
    (canvas axisRect bottomScaleRect topScaleRect : RectF)
    (halign : st.alignCanvasToScales.xBottom = true)
    (hvalid : bottomScaleRect.isValid = true)
    (hdy : (((backboneOffset st options).xBottom - endDist + 1 : ℤ) : ℚ) +
      bottomScaleRect.h < 0) :
    (alignVertStep st options startDist endDist canvas axisRect
        bottomScaleRect topScaleRect).1.bottom =
      min canvas.bottom (axisRect.bottom +
        ((((backboneOffset st options).xBottom - endDist + 1 : ℤ) : ℚ) +
          bottomScaleRect.h)) ∧
    (alignVertStep st options startDist endDist canvas axisRect
        bottomScaleRect topScaleRect).2.bottom = axisRect.bottom := by
  simp only [alignVertStep, alignVertBottom, hvalid, halign, hdy, if_true,
    true_and, if_pos trivial]
  refine ⟨?_, (alignVertTop_bottoms st options startDist _ _ _).2⟩
  rw [(alignVertTop_bottoms st options startDist _ _ _).1]
  exact bottom_setBottom _ _

/-- Witness for C2: left axis rectangle `(0, 0, 40, 100)`, bottom
scale `(0, 100, 140, 30)`, end border distance 50, canvas aligned to
the bottom scale. -/
theorem alignScales_bottom_accommodates_witness :
    (alignVertStep alignBottomState Options.none 0 50 ⟨0, 0, 100, 100⟩
        ⟨0, 0, 40, 100⟩ ⟨0, 100, 140, 30⟩ RectF.zero).1.bottom =
      min (RectF.mk 0 0 100 100).bottom ((RectF.mk 0 0 40 100).bottom +
        ((((backboneOffset alignBottomState Options.none).xBottom - 50 + 1 :
          ℤ) : ℚ) + (RectF.mk 0 100 140 30).h)) ∧
    (alignVertStep alignBottomState Options.none 0 50 ⟨0, 0, 100, 100⟩
        ⟨0, 0, 40, 100⟩ ⟨0, 100, 140, 30⟩ RectF.zero).2.bottom =
      (RectF.mk 0 0 40 100).bottom :=
  alignScales_bottom_accommodates alignBottomState Options.none 0 50
    ⟨0, 0, 100, 100⟩ ⟨0, 0, 40, 100⟩ ⟨0, 100, 140, 30⟩ RectF.zero
    rfl (by norm_num [RectF.isValid])
    (by norm_num [backboneOffset, backboneOffsetFor, alignBottomState,
      baseState, emptyLayoutData, Options.none, Vec4.const])

/-- `LayoutData::init` writes the same values when run twice on the
same plot and rectangle (unwritten fields pass through). -/
theorem axisInit_idem (scl : ScaleWidget) (en : Bool) (prev : AxisData) :
    axisInit scl en (axisInit scl en prev) = axisInit scl en prev := by
  cases en <;> simp [axisInit]

theorem dataInit_idem (plot : Plot) (rect : RectF) (d : LayoutData) :
    dataInit plot rect (dataInit plot rect d) = dataInit plot rect d := by
  cases hL : plot.hasLegend <;>
    simp [dataInit, hL, axisInit_idem]

/-- The legend block changes only the legend rectangle and the working
rectangle. -/
theorem placeLegendBlock_preserves (st : PrivateData) (plot : Plot)
    (options : Options) (rect : RectF) :
    ((placeLegendBlock st plot options rect).1).titleRect = st.titleRect ∧
    ((placeLegendBlock st plot options rect).1).footerRect = st.footerRect ∧
    ((placeLegendBlock st plot options rect).1).canvasRect = st.canvasRect ∧
    ((placeLegendBlock st plot options rect).1).scaleRect = st.scaleRect ∧
    ((placeLegendBlock st plot options rect).1).layoutData = st.layoutData ∧
    ((placeLegendBlock st plot options rect).1).legendPos = st.legendPos ∧
    ((placeLegendBlock st plot options rect).1).legendRatio = st.legendRatio ∧
    ((placeLegendBlock st plot options rect).1).spacing = st.spacing ∧
    ((placeLegendBlock st plot options rect).1).canvasMargin =
      st.canvasMargin ∧
    ((placeLegendBlock st plot options rect).1).alignCanvasToScales =
      st.alignCanvasToScales := by
  simp only [placeLegendBlock]
  split_ifs <;> simp

/-- The title/footer block changes only the title and footer
rectangles and the working rectangle. -/
theorem placeTitleFooter_preserves (st : PrivateData) (rect : RectF)
    (d : Dims) :
    ((placeTitleFooter st rect d).1).legendRect = st.legendRect ∧
    ((placeTitleFooter st rect d).1).canvasRect = st.canvasRect ∧
    ((placeTitleFooter st rect d).1).scaleRect = st.scaleRect ∧
    ((placeTitleFooter st rect d).1).layoutData = st.layoutData ∧
    ((placeTitleFooter st rect d).1).legendPos = st.legendPos ∧
    ((placeTitleFooter st rect d).1).legendRatio = st.legendRatio ∧
    ((placeTitleFooter st rect d).1).spacing = st.spacing ∧
    ((placeTitleFooter st rect d).1).canvasMargin = st.canvasMargin ∧
    ((placeTitleFooter st rect d).1).alignCanvasToScales =
      st.alignCanvasToScales := by
  simp only [placeTitleFooter, placeTitle, placeFooter]
  split_ifs <;> simp

/-- The tail of `activate` never touches the captured layout data or
the configuration. -/
theorem activatePost_preserves (st : PrivateData) (options : Options)
    (rect : RectF) (d : Dims) :
    (activatePost st options rect d).layoutData = st.layoutData ∧
    (activatePost st options rect d).legendPos = st.legendPos ∧
    (activatePost st options rect d).legendRatio = st.legendRatio ∧
    (activatePost st options rect d).spacing = st.spacing ∧
    (activatePost st options rect d).canvasMargin = st.canvasMargin ∧
    (activatePost st options rect d).alignCanvasToScales =
      st.alignCanvasToScales := by
  have hp := placeTitleFooter_preserves st rect d
  simp only [activatePost]
  split_ifs <;>
    simp [hp.2.2.2.1, hp.2.2.2.2.1, hp.2.2.2.2.2.1, hp.2.2.2.2.2.2.1,
      hp.2.2.2.2.2.2.2.1, hp.2.2.2.2.2.2.2.2]

/-- The stabilized accumulator of the expand loop is unique. -/
theorem expandReaches_unique {st : PrivateData} {options : Options}
    {rect : RectF} {d1 d2 : Dims} (h1 : ExpandReaches st options rect d1)
    (h2 : ExpandReaches st options rect d2) : d1 = d2 := by
  obtain ⟨n, hn, hfix1⟩ := h1
  obtain ⟨m, hm, hfix2⟩ := h2
  rcases le_total n m with h | h
  · have : (stepExpand st options rect)^[m] Dims.zero = d1 := by
      rw [show m = (m - n) + n from (Nat.sub_add_cancel h).symm,
        Function.iterate_add_apply, hn, Function.iterate_fixed hfix1]
    rw [← hm, this]
  · have : (stepExpand st options rect)^[n] Dims.zero = d2 := by
      rw [show n = (n - m) + m from (Nat.sub_add_cancel h).symm,
        Function.iterate_add_apply, hm, Function.iterate_fixed hfix2]
    rw [← hn, this]

/-- The state fed to the expand loop coincides between a first and a
second identical `activate` call. -/
theorem activatePre_stable (st st1 : PrivateData) (plot : Plot)
    (plotRect : RectF) (options : Options) (d1 : Dims)
    (hout : st1 = activatePost (activatePre st plot plotRect options).1
      options (activatePre st plot plotRect options).2 d1) :
    activatePre st1 plot plotRect options =
      activatePre st plot plotRect options := by
  have hpost := activatePost_preserves
    (activatePre st plot plotRect options).1 options
    (activatePre st plot plotRect options).2 d1
  have hpre := placeLegendBlock_preserves
    { invalidate st with layoutData := dataInit plot plotRect st.layoutData }
    plot options plotRect
  have hbase :
      ({ invalidate st1 with
          layoutData := dataInit plot plotRect st1.layoutData } :
        PrivateData) =
      { invalidate st with
          layoutData := dataInit plot plotRect st.layoutData } := by
    have hld : st1.layoutData = dataInit plot plotRect st.layoutData := by
      rw [hout]
      exact hpost.1.trans hpre.2.2.2.2.1
    ext1 <;>
      simp only [invalidate] <;>
      first
        | rfl
        | (rw [hld]; exact dataInit_idem plot plotRect st.layoutData)
        | (rw [hout]
           first
             | exact hpost.2.1.trans hpre.2.2.2.2.2.1
             | exact hpost.2.2.1.trans hpre.2.2.2.2.2.2.1
             | exact hpost.2.2.2.1.trans hpre.2.2.2.2.2.2.2.1
             | exact hpost.2.2.2.2.1.trans hpre.2.2.2.2.2.2.2.2.1
             | exact hpost.2.2.2.2.2.trans hpre.2.2.2.2.2.2.2.2.2)
  exact congrArg (fun s => placeLegendBlock s plot options plotRect) hbase

/-- C4: calling `activate` a second time with the identical plot
snapshot, plot rectangle and options produces exactly the same state —
in particular the same title, footer, legend, canvas and scale
rectangles — as the first call. -/
theorem activate_idempotent (st : PrivateData) (plot : Plot)
    (plotRect : RectF) (options : Options) (st1 st2 : PrivateData)
    (h1 : ActivateRel st plot plotRect options st1)
    (h2 : ActivateRel st1 plot plotRect options st2) : st2 = st1 := by
  obtain ⟨d1, hreach1, hout1⟩ := h1
  obtain ⟨d2, hreach2, hout2⟩ := h2
  have hpre := activatePre_stable st st1 plot plotRect options d1 hout1
  rw [hpre] at hreach2 hout2
  rw [hout2, hout1, expandReaches_unique hreach2 hreach1]

/-- Witness for C4: two `activate` passes over `quietPlot`. -/
theorem activate_idempotent_witness : idemSecondRun = idemFirstRun :=
  activate_idempotent baseState quietPlot idemRect Options.none
    idemFirstRun idemSecondRun
    ⟨Dims.zero, ⟨0, rfl, rfl⟩, rfl⟩
    ⟨Dims.zero, ⟨0, rfl, rfl⟩, rfl⟩

theorem dimsLe_refl (d : Dims) : Dims.le d d := by
  unfold Dims.le
  omega

theorem dimsLe_trans {a b c : Dims} (h1 : Dims.le a b) (h2 : Dims.le b c) :
    Dims.le a c := by
  unfold Dims.le at *
  omega

theorem dimsLe_set_title {d : Dims} {c : ℤ} (h : d.title ≤ c) :
    Dims.le d { d with title := c } :=
  ⟨h, le_refl _, le_refl _, le_refl _, le_refl _, le_refl _⟩

theorem dimsLe_set_footer {d : Dims} {c : ℤ} (h : d.footer ≤ c) :
    Dims.le d { d with footer := c } :=
  ⟨le_refl _, h, le_refl _, le_refl _, le_refl _, le_refl _⟩

theorem dimsLe_set_yLeft {d : Dims} {c : ℤ} (h : d.axis.yLeft ≤ c) :
    Dims.le d { d with axis.yLeft := c } :=
  ⟨le_refl _, le_refl _, h, le_refl _, le_refl _, le_refl _⟩

theorem dimsLe_set_yRight {d : Dims} {c : ℤ} (h : d.axis.yRight ≤ c) :
    Dims.le d { d with axis.yRight := c } :=
  ⟨le_refl _, le_refl _, le_refl _, h, le_refl _, le_refl _⟩

theorem dimsLe_set_xBottom {d : Dims} {c : ℤ} (h : d.axis.xBottom ≤ c) :
    Dims.le d { d with axis.xBottom := c } :=
  ⟨le_refl _, le_refl _, le_refl _, le_refl _, h, le_refl _⟩

theorem dimsLe_set_xTop {d : Dims} {c : ℤ} (h : d.axis.xTop ≤ c) :
    Dims.le d { d with axis.xTop := c } :=
  ⟨le_refl _, le_refl _, le_refl _, le_refl _, le_refl _, h⟩

/-- Each loop-body stage only raises its accumulator. -/
theorem expandTitleStage_le (st : PrivateData) (options : Options)
    (rect : RectF) (d : Dims) :
    Dims.le d (expandTitleStage st options rect d) := by
  simp only [expandTitleStage]
  split_ifs with h1 h2
  · exact dimsLe_set_title (le_of_lt h2)
  · exact dimsLe_refl d
  · exact dimsLe_refl d

theorem expandFooterStage_le (st : PrivateData) (options : Options)
    (rect : RectF) (d : Dims) :
    Dims.le d (expandFooterStage st options rect d) := by
  simp only [expandFooterStage]
  split_ifs with h1 h2
  · exact dimsLe_set_footer (le_of_lt h2)
  · exact dimsLe_refl d
  · exact dimsLe_refl d

theorem expandYLeftStage_le (st : PrivateData) (options : Options)
    (rect : RectF) (d : Dims) :
    Dims.le d (expandYLeftStage st options rect d) := by
  simp only [expandYLeftStage]
  split_ifs with h1 h2
  · exact dimsLe_set_yLeft (le_of_lt h2)
  · exact dimsLe_refl d
  · exact dimsLe_refl d

theorem expandYRightStage_le (st : PrivateData) (options : Options)
    (rect : RectF) (d : Dims) :
    Dims.le d (expandYRightStage st options rect d) := by
  simp only [expandYRightStage]
  split_ifs with h1 h2
  · exact dimsLe_set_yRight (le_of_lt h2)
  · exact dimsLe_refl d
  · exact dimsLe_refl d

theorem expandXBottomStage_le (st : PrivateData) (options : Options)
    (rect : RectF) (d : Dims) :
    Dims.le d (expandXBottomStage st options rect d) := by
  simp only [expandXBottomStage]
  split_ifs with h1 h2
  · exact dimsLe_set_xBottom (le_of_lt h2)
  · exact dimsLe_refl d
  · exact dimsLe_refl d

theorem expandXTopStage_le (st : PrivateData) (options : Options)
    (rect : RectF) (d : Dims) :
    Dims.le d (expandXTopStage st options rect d) := by
  simp only [expandXTopStage]
  split_ifs with h1 h2
  · exact dimsLe_set_xTop (le_of_lt h2)
  · exact dimsLe_refl d
  · exact dimsLe_refl d

/-- One loop-body execution never decreases any accumulator. -/
theorem stepExpand_le (st : PrivateData) (options : Options) (rect : RectF)
    (d : Dims) : Dims.le d (stepExpand st options rect d) := by
  unfold stepExpand
  exact dimsLe_trans (expandTitleStage_le st options rect d)
    (dimsLe_trans (expandFooterStage_le st options rect _)
      (dimsLe_trans (expandYLeftStage_le st options rect _)
        (dimsLe_trans (expandYRightStage_le st options rect _)
          (dimsLe_trans (expandXBottomStage_le st options rect _)
            (expandXTopStage_le st options rect _)))))

theorem dimsBounded_set_title {d : Dims} {M c : ℤ} (hd : Dims.bounded d M)
    (h : c ≤ M) : Dims.bounded { d with title := c } M :=
  ⟨h, hd.2.1, hd.2.2.1, hd.2.2.2.1, hd.2.2.2.2.1, hd.2.2.2.2.2⟩

theorem dimsBounded_set_footer {d : Dims} {M c : ℤ} (hd : Dims.bounded d M)
    (h : c ≤ M) : Dims.bounded { d with footer := c } M :=
  ⟨hd.1, h, hd.2.2.1, hd.2.2.2.1, hd.2.2.2.2.1, hd.2.2.2.2.2⟩

theorem dimsBounded_set_yLeft {d : Dims} {M c : ℤ} (hd : Dims.bounded d M)
    (h : c ≤ M) : Dims.bounded { d with axis.yLeft := c } M :=
  ⟨hd.1, hd.2.1, h, hd.2.2.2.1, hd.2.2.2.2.1, hd.2.2.2.2.2⟩

theorem dimsBounded_set_yRight {d : Dims} {M c : ℤ} (hd : Dims.bounded d M)
    (h : c ≤ M) : Dims.bounded { d with axis.yRight := c } M :=
  ⟨hd.1, hd.2.1, hd.2.2.1, h, hd.2.2.2.2.1, hd.2.2.2.2.2⟩

theorem dimsBounded_set_xBottom {d : Dims} {M c : ℤ} (hd : Dims.bounded d M)
    (h : c ≤ M) : Dims.bounded { d with axis.xBottom := c } M :=
  ⟨hd.1, hd.2.1, hd.2.2.1, hd.2.2.2.1, h, hd.2.2.2.2.2⟩

theorem dimsBounded_set_xTop {d : Dims} {M c : ℤ} (hd : Dims.bounded d M)
    (h : c ≤ M) : Dims.bounded { d with axis.xTop := c } M :=
  ⟨hd.1, hd.2.1, hd.2.2.1, hd.2.2.2.1, hd.2.2.2.2.1, h⟩

theorem expandTitleStage_bounded {st : PrivateData} {options : Options}
    {rect : RectF} {B M : ℤ} (hBM : B ≤ M)
    (hc : ∀ d : Dims, labelCandidate st options rect d st.layoutData.title
      ≤ B) (d : Dims) (hd : Dims.bounded d M) :
    Dims.bounded (expandTitleStage st options rect d) M := by
  simp only [expandTitleStage]
  split_ifs with h1 h2
  · exact dimsBounded_set_title hd (le_trans (hc d) hBM)
  · exact hd
  · exact hd

theorem expandFooterStage_bounded {st : PrivateData} {options : Options}
    {rect : RectF} {B M : ℤ} (hBM : B ≤ M)
    (hc : ∀ d : Dims, labelCandidate st options rect d st.layoutData.footer
      ≤ B) (d : Dims) (hd : Dims.bounded d M) :
    Dims.bounded (expandFooterStage st options rect d) M := by
  simp only [expandFooterStage]
  split_ifs with h1 h2
  · exact dimsBounded_set_footer hd (le_trans (hc d) hBM)
  · exact hd
  · exact hd

theorem expandYLeftStage_bounded {st : PrivateData} {options : Options}
    {rect : RectF} {B M : ℤ} (hBM : B ≤ M)
    (hc : ∀ d : Dims, vAxisCandidate st options rect d
      st.layoutData.scale.yLeft ≤ B) (d : Dims) (hd : Dims.bounded d M) :
    Dims.bounded (expandYLeftStage st options rect d) M := by
  simp only [expandYLeftStage]
  split_ifs with h1 h2
  · exact dimsBounded_set_yLeft hd (le_trans (hc d) hBM)
  · exact hd
  · exact hd

theorem expandYRightStage_bounded {st : PrivateData} {options : Options}
    {rect : RectF} {B M : ℤ} (hBM : B ≤ M)
    (hc : ∀ d : Dims, vAxisCandidate st options rect d
      st.layoutData.scale.yRight ≤ B) (d : Dims) (hd : Dims.bounded d M) :
    Dims.bounded (expandYRightStage st options rect d) M := by
  simp only [expandYRightStage]
  split_ifs with h1 h2
  · exact dimsBounded_set_yRight hd (le_trans (hc d) hBM)
  · exact hd
  · exact hd

theorem expandXBottomStage_bounded {st : PrivateData} {options : Options}
    {rect : RectF} {B M : ℤ} (hBM : B ≤ M)
    (hc : ∀ d : Dims, hAxisCandidate st options rect d
      st.layoutData.scale.xBottom ≤ B) (d : Dims) (hd : Dims.bounded d M) :
    Dims.bounded (expandXBottomStage st options rect d) M := by
  simp only [expandXBottomStage]
  split_ifs with h1 h2
  · exact dimsBounded_set_xBottom hd (le_trans (hc d) hBM)
  · exact hd
  · exact hd

theorem expandXTopStage_bounded {st : PrivateData} {options : Options}
    {rect : RectF} {B M : ℤ} (hBM : B ≤ M)
    (hc : ∀ d : Dims, hAxisCandidate st options rect d
      st.layoutData.scale.xTop ≤ B) (d : Dims) (hd : Dims.bounded d M) :
    Dims.bounded (expandXTopStage st options rect d) M := by
  simp only [expandXTopStage]
  split_ifs with h1 h2
  · exact dimsBounded_set_xTop hd (le_trans (hc d) hBM)
  · exact hd
  · exact hd

/-- Bounded candidates keep every iterate of the loop body bounded. -/
theorem stepExpand_bounded {st : PrivateData} {options : Options}
    {rect : RectF} {B M : ℤ} (hB : CandidatesBounded st options rect B)
    (hBM : B ≤ M) (d : Dims) (hd : Dims.bounded d M) :
    Dims.bounded (stepExpand st options rect d) M := by
  obtain ⟨h1, h2, h3, h4, h5, h6⟩ := hB
  unfold stepExpand
  exact expandXTopStage_bounded hBM h6 _
    (expandXBottomStage_bounded hBM h5 _
      (expandYRightStage_bounded hBM h4 _
        (expandYLeftStage_bounded hBM h3 _
          (expandFooterStage_bounded hBM h2 _
            (expandTitleStage_bounded hBM h1 _ hd)))))

/-- A non-fixed point strictly increases the accumulator sum. -/
theorem sumDims_lt_of_ne {st : PrivateData} {options : Options}
    {rect : RectF} (d : Dims)
    (h : stepExpand st options rect d ≠ d) :
    sumDims d < sumDims (stepExpand st options rect d) := by
  have hle := stepExpand_le st options rect d
  unfold Dims.le at hle
  unfold sumDims
  by_contra hnot
  push_neg at hnot
  apply h
  ext <;> omega

/-- With bounded candidates the expand loop reaches a fixed point. -/
theorem expand_terminates_of_bounded {st : PrivateData} {options : Options}
    {rect : RectF} {B : ℤ} (hB : CandidatesBounded st options rect B) :
    ∃ d : Dims, ExpandReaches st options rect d := by
  have hBM : B ≤ max B 0 := le_max_left _ _
  have hbnd : ∀ n : ℕ,
      Dims.bounded ((stepExpand st options rect)^[n] Dims.zero) (max B 0) := by
    intro n
    induction n with
    | zero =>
      exact ⟨le_max_right B 0, le_max_right B 0, le_max_right B 0,
        le_max_right B 0, le_max_right B 0, le_max_right B 0⟩
    | succ n ih =>
      rw [Function.iterate_succ_apply']
      exact stepExpand_bounded hB hBM _ ih
  have key : ∀ k n : ℕ,
      (6 * max B 0 -
        sumDims ((stepExpand st options rect)^[n] Dims.zero)).toNat ≤ k →
      ∃ d : Dims, ExpandReaches st options rect d := by
    intro k
    induction k with
    | zero =>
      intro n hn
      by_cases hfix : stepExpand st options rect
          ((stepExpand st options rect)^[n] Dims.zero) =
          (stepExpand st options rect)^[n] Dims.zero
      · exact ⟨_, n, rfl, hfix⟩
      · exfalso
        have hlt := sumDims_lt_of_ne _ hfix
        have hb := hbnd (n + 1)
        rw [Function.iterate_succ_apply'] at hb
        unfold Dims.bounded at hb
        unfold sumDims at hlt hn
        omega
    | succ k ih =>
      intro n hn
      by_cases hfix : stepExpand st options rect
          ((stepExpand st options rect)^[n] Dims.zero) =
          (stepExpand st options rect)^[n] Dims.zero
      · exact ⟨_, n, rfl, hfix⟩
      · apply ih (n + 1)
        have hlt := sumDims_lt_of_ne _ hfix
        have hb := hbnd (n + 1)
        rw [Function.iterate_succ_apply'] at hb ⊢
        unfold Dims.bounded at hb
        unfold sumDims at hlt hn ⊢
        omega
  exact key ((6 * max B 0 - sumDims ((stepExpand st options rect)^[0]
    Dims.zero)).toNat) 0 le_rfl

/-- C6 (amended): each accumulator of the expand loop is monotonically
non-decreasing across iterations, and whenever the candidate
dimensions the body computes are bounded above the loop reaches a
fixed point; termination does not hold for every input (see the
counterexample). -/
theorem expand_monotone_and_conditional_termination (st : PrivateData)
    (options : Options) (rect : RectF) :
    (∀ d : Dims, Dims.le d (stepExpand st options rect d)) ∧
    (∀ B : ℤ, CandidatesBounded st options rect B →
      ∃ d : Dims, ExpandReaches st options rect d) :=
  ⟨fun d => stepExpand_le st options rect d,
   fun _ hB => expand_terminates_of_bounded hB⟩

/-- All candidates of the all-empty base snapshot are zero. -/
theorem candidatesBounded_base :
    CandidatesBounded baseState Options.none idemRect 0 := by
  refine ⟨fun d => ?_, fun d => ?_, fun d => ?_, fun d => ?_, fun d => ?_,
    fun d => ?_⟩ <;>
    simp [labelCandidate, vAxisCandidate, hAxisCandidate, baseState,
      emptyLayoutData, emptyLabelData, zeroAxisData, emptyTextHfw, qwtCeil,
      Options.none, Vec4.const]

/-- Witness for the amended C6: monotonicity at the base snapshot, and
termination there (candidates are bounded by 0). -/
theorem expand_monotone_and_termination_witness :
    (∀ d : Dims, Dims.le d (stepExpand baseState Options.none idemRect d)) ∧
    (∃ d : Dims, ExpandReaches baseState Options.none idemRect d) :=
  ⟨(expand_monotone_and_conditional_termination baseState Options.none
      idemRect).1,
   (expand_monotone_and_conditional_termination baseState Options.none
      idemRect).2 0 candidatesBounded_base⟩

theorem qwtCeil_eq_of_eq_intCast {q : ℚ} {n : ℤ} (h : q = (n : ℚ)) :
    qwtCeil q = n := by
  rw [h]
  simp [qwtCeil]

theorem qwtFloor_eq_of_eq_intCast {q : ℚ} {n : ℤ} (h : q = (n : ℚ)) :
    qwtFloor q = n := by
  rw [h]
  simp [qwtFloor]

/-- On the runaway snapshot the title stage raises the title to
`900 + yLeft`. -/
theorem runawayTitle_eval (e : Dims) (hyr : e.axis.yRight = 0)
    (hT : e.title < 900 + e.axis.yLeft) :
    expandTitleStage expandRunawayState Options.none runawayRect e =
      { e with title := 900 + e.axis.yLeft } := by
  have hcand : labelCandidate expandRunawayState Options.none runawayRect e
      expandRunawayState.layoutData.title = 900 + e.axis.yLeft := by
    simp only [labelCandidate, expandRunawayState, baseState,
      emptyLayoutData, zeroAxisData, runawayRect, Options.none]
    rw [hyr]
    norm_num
    exact qwtCeil_eq_of_eq_intCast (by push_cast; ring)
  simp only [expandTitleStage]
  split_ifs with h1 h2
  · rw [hcand]
  · rw [hcand] at h2
    omega
  · exfalso
    apply h1
    simp [Options.none, expandRunawayState, baseState, emptyLayoutData]

/-- The footer stage is inert on the runaway snapshot. -/
theorem runawayFooter_eval (e : Dims) :
    expandFooterStage expandRunawayState Options.none runawayRect e = e := by
  simp [expandFooterStage, expandRunawayState, baseState, emptyLayoutData,
    emptyLabelData, Options.none]

/-- On the runaway snapshot the `yLeft` stage raises the axis
dimension to `918 + title`. -/
theorem runawayYLeft_eval (e : Dims) (hxb : e.axis.xBottom = 0)
    (hxt : e.axis.xTop = 0) (hT : 0 < e.title)
    (hY : e.axis.yLeft < 918 + e.title) :
    expandYLeftStage expandRunawayState Options.none runawayRect e =
      { e with axis.yLeft := 918 + e.title } := by
  have hcand : vAxisCandidate expandRunawayState Options.none runawayRect e
      expandRunawayState.layoutData.scale.yLeft = 918 + e.title := by
    simp only [vAxisCandidate, expandRunawayState, baseState,
      emptyLayoutData, zeroAxisData, runawayRect, Options.none,
      backboneOffset, backboneOffsetFor, Vec4.const]
    rw [hxb, hxt, if_pos hT]
    norm_num
    rw [qwtFloor_eq_of_eq_intCast
      (show (97 : ℚ) - ((e.title : ℚ) + 5) = ((92 - e.title : ℤ) : ℚ) by
        push_cast; ring)]
    omega
  simp only [expandYLeftStage]
  split_ifs with h1 h2
  · rw [hcand]
  · rw [hcand] at h2
    omega
  · exfalso
    apply h1
    simp [expandRunawayState, baseState, emptyLayoutData]

/-- The three remaining stages are inert on the runaway snapshot. -/
theorem runawayTail_eval (e : Dims) :
    expandYRightStage expandRunawayState Options.none runawayRect e = e ∧
    expandXBottomStage expandRunawayState Options.none runawayRect e = e ∧
    expandXTopStage expandRunawayState Options.none runawayRect e = e := by
  refine ⟨?_, ?_, ?_⟩ <;>
    simp [expandYRightStage, expandXBottomStage, expandXTopStage,
      expandRunawayState, baseState, emptyLayoutData, zeroAxisData,
      Options.none]

/-- One loop-body execution on the runaway snapshot. -/
theorem runawayStep_eval (e : Dims) (hyr : e.axis.yRight = 0)
    (hxb : e.axis.xBottom = 0) (hxt : e.axis.xTop = 0)
    (hY0 : 0 ≤ e.axis.yLeft) (hT : e.title < 900 + e.axis.yLeft) :
    stepExpand expandRunawayState Options.none runawayRect e =
      { e with
        title := 900 + e.axis.yLeft
        axis := { e.axis with yLeft := 918 + (900 + e.axis.yLeft) } } := by
  unfold stepExpand
  rw [runawayTitle_eval e hyr hT, runawayFooter_eval,
    runawayYLeft_eval { e with title := 900 + e.axis.yLeft }
      (hxb : ({ e with title := 900 + e.axis.yLeft } : Dims).axis.xBottom = 0)
      (hxt : ({ e with title := 900 + e.axis.yLeft } : Dims).axis.xTop = 0)
      (show (0 : ℤ) < ({ e with title := 900 + e.axis.yLeft } : Dims).title
        by show (0 : ℤ) < 900 + e.axis.yLeft; omega)
      (show ({ e with title := 900 + e.axis.yLeft } : Dims).axis.yLeft <
          918 + ({ e with title := 900 + e.axis.yLeft } : Dims).title
        by show e.axis.yLeft < 918 + (900 + e.axis.yLeft); omega),
    (runawayTail_eval _).1, (runawayTail_eval _).2.1,
    (runawayTail_eval _).2.2]

/-- C6 counterexample: with a title whose height-for-width is
`1000 - w` and a `yLeft` axis title with height-for-width
`1000 - len`, each loop-body execution strictly increases the title
accumulator, so no iterate of the expand loop is ever a fixed point:
the loop of `expandLineBreaks` does not terminate on this input. -/
theorem expand_runaway_counterexample :
    ¬ ∃ d : Dims,
      ExpandReaches expandRunawayState Options.none runawayRect d := by
  rintro ⟨d, n, hn, hfix⟩
  have hzero : stepExpand expandRunawayState Options.none runawayRect
      Dims.zero = ⟨900, 0, ⟨1818, 0, 0, 0⟩⟩ := by
    rw [runawayStep_eval Dims.zero rfl rfl rfl (le_refl 0)
      (show (0 : ℤ) < 900 + (0 : ℤ) by omega)]
    ext <;> simp [Dims.zero]
  have hinv : ∀ m : ℕ,
      0 ≤ ((stepExpand expandRunawayState Options.none
          runawayRect)^[m + 1] Dims.zero).title ∧
      ((stepExpand expandRunawayState Options.none
          runawayRect)^[m + 1] Dims.zero).axis.yLeft =
        918 + ((stepExpand expandRunawayState Options.none
          runawayRect)^[m + 1] Dims.zero).title ∧
      ((stepExpand expandRunawayState Options.none
          runawayRect)^[m + 1] Dims.zero).axis.yRight = 0 ∧
      ((stepExpand expandRunawayState Options.none
          runawayRect)^[m + 1] Dims.zero).axis.xBottom = 0 ∧
      ((stepExpand expandRunawayState Options.none
          runawayRect)^[m + 1] Dims.zero).axis.xTop = 0 := by
    intro m
    induction m with
    | zero =>
      simp only [Nat.zero_add, Function.iterate_one, hzero]
      norm_num
    | succ m ih =>
      obtain ⟨h1, h2, h3, h4, h5⟩ := ih
      rw [Function.iterate_succ_apply',
        runawayStep_eval _ h3 h4 h5 (by omega) (by omega)]
      have h0 : (0 : ℤ) ≤ 900 + ((stepExpand expandRunawayState Options.none
          runawayRect)^[m + 1] Dims.zero).axis.yLeft := by omega
      exact ⟨h0, rfl, h3, h4, h5⟩
  have hnotfix : ∀ e : Dims, 0 ≤ e.title →
      e.axis.yLeft = 918 + e.title → e.axis.yRight = 0 →
      e.axis.xBottom = 0 → e.axis.xTop = 0 →
      stepExpand expandRunawayState Options.none runawayRect e ≠ e := by
    intro e h1 h2 h3 h4 h5 heq
    rw [runawayStep_eval e h3 h4 h5 (by omega) (by omega)] at heq
    have h6 : 900 + e.axis.yLeft = e.title := congrArg Dims.title heq
    omega
  cases n with
  | zero =>
    rw [Function.iterate_zero_apply] at hn
    rw [← hn] at hfix
    rw [hzero] at hfix
    have h9 : (900 : ℤ) = 0 := congrArg Dims.title hfix
    omega
  | succ m =>
    obtain ⟨h1, h2, h3, h4, h5⟩ := hinv m
    rw [← hn] at hfix
    exact hnotfix _ h1 h2 h3 h4 h5 hfix

/-- C5 counterexample: with spacing 0, a right legend (ratio 0.5, size
hint 30×50) and the fractional plot rectangle `(0, 0, 100.6, 100)`,
`activate` rounds the working rectangle through the integer region
subtraction to `(0, 0, 71, 100)` while the legend keeps its exact left
edge 70.6; the resulting canvas rectangle `(0, 0, 71, 100)` and legend
rectangle `(70.6, 0, 30, 100)` overlap in area. -/
theorem activate_overlap_counterexample :
    ActivateRel overlapState overlapPlot overlapRect Options.none
      overlapOut ∧
    ¬ RectF.interiorDisjoint overlapOut.canvasRect overlapOut.legendRect := by
  constructor
  · exact ⟨Dims.zero, ⟨0, rfl, rfl⟩, rfl⟩
  · have hpre : activatePre overlapState overlapPlot overlapRect
        Options.none =
        ({ (invalidate overlapState) with
            layoutData := dataInit overlapPlot overlapRect
              (invalidate overlapState).layoutData
            legendRect := (⟨353/5, 0, 30, 100⟩ : RectF) },
          (⟨0, 0, 71, 100⟩ : RectF)) := by
      norm_num [activatePre, placeLegendBlock, layoutLegend, legendDim,
        overlapState,
        overlapPlot, overlapRect, quietPlot, baseState, Options.none,
        cppToInt, dataInit, invalidate, emptyLayoutData, RightLegend,
        LeftLegend, TopLegend, BottomLegend, RectF.setX, RectF.setLeft,
        RectF.setWidth, RectF.setRight, RectF.right, RectF.toRect,
        RectI.toRectF, qRound, regionSubtractedBounding, qwtFloor,
        RectF.left]
    have hfields : overlapOut.canvasRect = ⟨0, 0, 71, 100⟩ ∧
        overlapOut.legendRect = ⟨353/5, 0, 30, 100⟩ := by
      simp only [overlapOut]
      rw [hpre]
      norm_num [activatePost, placeTitleFooter, placeTitle, placeFooter,
        computeCanvasRect,
        initialScaleRects, alignScales, alignScalesPass1, alignPass1YLeft,
        alignPass1YRight, alignPass1XBottom, alignPass1XTop,
        alignScalesPass2,
        alignLegend, RectF.isValid, RectF.isEmpty, RectF.zero, Vec4.const,
        invalidate, overlapState, overlapPlot, overlapRect, quietPlot,
        baseState, dataInit, emptyLayoutData, Dims.zero, Options.none,
        RightLegend, LeftLegend, TopLegend, BottomLegend, RectF.setY,
        RectF.setTop, RectF.setHeight, RectF.setX, RectF.setLeft,
        RectF.setWidth, RectF.left, RectF.top, RectF.right, RectF.bottom,
        qwtFloor]
    rw [hfields.1, hfields.2]
    simp only [RectF.interiorDisjoint]
    norm_num

theorem interiorDisjoint_of_right_le {a b : RectF} (h : a.x + a.w ≤ b.x) :
    RectF.interiorDisjoint a b :=
  Or.inl (le_trans (min_le_left _ _) (le_trans h (le_max_right _ _)))

theorem interiorDisjoint_of_left_ge {a b : RectF} (h : b.x + b.w ≤ a.x) :
    RectF.interiorDisjoint a b :=
  Or.inl (le_trans (min_le_right _ _) (le_trans h (le_max_left _ _)))

theorem interiorDisjoint_of_bottom_le {a b : RectF} (h : a.y + a.h ≤ b.y) :
    RectF.interiorDisjoint a b :=
  Or.inr (le_trans (min_le_left _ _) (le_trans h (le_max_right _ _)))

theorem interiorDisjoint_of_top_ge {a b : RectF} (h : b.y + b.h ≤ a.y) :
    RectF.interiorDisjoint a b :=
  Or.inr (le_trans (min_le_right _ _) (le_trans h (le_max_left _ _)))

theorem interiorDisjoint_of_w_nonpos_left {a b : RectF} (h : a.w ≤ 0) :
    RectF.interiorDisjoint a b :=
  Or.inl (le_trans (min_le_left _ _)
    (le_trans (by linarith) (le_max_left a.x b.x)))

theorem interiorDisjoint_of_h_nonpos_left {a b : RectF} (h : a.h ≤ 0) :
    RectF.interiorDisjoint a b :=
  Or.inr (le_trans (min_le_left _ _)
    (le_trans (by linarith) (le_max_left a.y b.y)))

theorem interiorDisjoint_of_w_nonpos_right {a b : RectF} (h : b.w ≤ 0) :
    RectF.interiorDisjoint a b :=
  Or.inl (le_trans (min_le_right _ _)
    (le_trans (by linarith) (le_max_right a.x b.x)))

theorem interiorDisjoint_of_h_nonpos_right {a b : RectF} (h : b.h ≤ 0) :
    RectF.interiorDisjoint a b :=
  Or.inr (le_trans (min_le_right _ _)
    (le_trans (by linarith) (le_max_right a.y b.y)))

/-- `alignLegend` changes only the coordinates perpendicular to the
legend's edge: for a bottom/top legend it keeps `y` and the height,
otherwise it keeps `x` and the width. -/
theorem alignLegend_coords (st : PrivateData) (canvas legend : RectF) :
    ((st.legendPos = BottomLegend ∨ st.legendPos = TopLegend) →
      (alignLegend st canvas legend).y = legend.y ∧
      (alignLegend st canvas legend).h = legend.h) ∧
    (¬(st.legendPos = BottomLegend ∨ st.legendPos = TopLegend) →
      (alignLegend st canvas legend).x = legend.x ∧
      (alignLegend st canvas legend).w = legend.w) := by
  unfold alignLegend
  split_ifs <;>
    simp_all [RectF.setX, RectF.setLeft, RectF.setWidth, RectF.setY,
      RectF.setTop, RectF.setHeight]

theorem canvasLe_refl (c : RectF) : canvasLe c c :=
  ⟨le_refl _, le_refl _, le_refl _, le_refl _⟩

theorem canvasLe_trans {c1 c2 c3 : RectF} (h1 : canvasLe c1 c2)
    (h2 : canvasLe c2 c3) : canvasLe c1 c3 := by
  unfold canvasLe at *
  exact ⟨le_trans h2.1 h1.1, le_trans h1.2.1 h2.2.1,
    le_trans h2.2.2.1 h1.2.2.1, le_trans h1.2.2.2 h2.2.2.2⟩

/-- The bottom-side part of the vertical first-pass body can only
shrink the canvas rectangle. -/
theorem alignVertBottom_canvas_shrink (st : PrivateData) (options : Options)
    (ed : ℤ) (c a b : RectF) :
    canvasLe (alignVertBottom st options ed c a b).1 c := by
  simp only [canvasLe, alignVertBottom]
  split_ifs <;>
    refine ⟨?_, ?_, ?_, ?_⟩ <;>
    simp [RectF.setBottom, RectF.bottom, RectF.top, min_def] <;>
    (try split_ifs) <;>
    linarith

/-- The top-side part of the vertical first-pass body can only shrink
the canvas rectangle. -/
theorem alignVertTop_canvas_shrink (st : PrivateData) (options : Options)
    (sd : ℤ) (c a t : RectF) :
    canvasLe (alignVertTop st options sd c a t).1 c := by
  simp only [canvasLe, alignVertTop]
  split_ifs <;>
    refine ⟨?_, ?_, ?_, ?_⟩ <;>
    simp [RectF.setTop, RectF.bottom, RectF.top, max_def] <;>
    (try split_ifs) <;>
    linarith

/-- The left-side part of the horizontal first-pass body can only
shrink the canvas rectangle. -/
theorem alignHorzLeft_canvas_shrink (st : PrivateData) (options : Options)
    (sd : ℤ) (c a l : RectF) :
    canvasLe (alignHorzLeft st options sd c a l).1 c := by
  simp only [canvasLe, alignHorzLeft]
  split_ifs <;>
    refine ⟨?_, ?_, ?_, ?_⟩ <;>
    simp [RectF.setLeft, RectF.left, RectF.right, max_def] <;>
    (try split_ifs) <;>
    linarith

/-- The right-side part of the horizontal first-pass body can only
shrink the canvas rectangle. -/
theorem alignHorzRight_canvas_shrink (st : PrivateData) (options : Options)
    (ed : ℤ) (c a r : RectF) :
    canvasLe (alignHorzRight st options ed c a r).1 c := by
  simp only [canvasLe, alignHorzRight]
  split_ifs <;>
    refine ⟨?_, ?_, ?_, ?_⟩ <;>
    simp [RectF.setRight, RectF.left, RectF.right, min_def] <;>
    (try split_ifs) <;>
    linarith

/-- The first-pass body for a vertical axis can only shrink the canvas
rectangle. -/
theorem alignVertStep_canvas_shrink (st : PrivateData) (options : Options)
    (sd ed : ℤ) (c a b t : RectF) :
    canvasLe (alignVertStep st options sd ed c a b t).1 c := by
  show canvasLe (alignVertTop st options sd
    (alignVertBottom st options ed c a b).1
    (alignVertBottom st options ed c a b).2 t).1 c
  exact canvasLe_trans
    (alignVertTop_canvas_shrink st options sd _ _ t)
    (alignVertBottom_canvas_shrink st options ed c a b)

/-- The first-pass body for a horizontal axis can only shrink the
canvas rectangle. -/
theorem alignHorzStep_canvas_shrink (st : PrivateData) (options : Options)
    (sd ed : ℤ) (c a l r : RectF) :
    canvasLe (alignHorzStep st options sd ed c a l r).1 c := by
  show canvasLe (alignHorzRight st options ed
    (alignHorzLeft st options sd c a l).1
    (alignHorzLeft st options sd c a l).2 r).1 c
  exact canvasLe_trans
    (alignHorzRight_canvas_shrink st options ed _ _ r)
    (alignHorzLeft_canvas_shrink st options sd c a l)

/-- The whole of `alignScales` can only shrink the canvas rectangle:
the first pass moves each canvas edge inward at most, and the second
pass never touches the canvas. -/
theorem alignPass1YLeft_canvas_shrink (st : PrivateData)
    (options : Options) (A : AlignData) :
    canvasLe (alignPass1YLeft st options A).canvas A.canvas := by
  unfold alignPass1YLeft
  split_ifs
  · exact alignVertStep_canvas_shrink st options _ _ A.canvas
      A.scales.yLeft A.scales.xBottom A.scales.xTop
  · exact canvasLe_refl _

theorem alignPass1YRight_canvas_shrink (st : PrivateData)
    (options : Options) (A : AlignData) :
    canvasLe (alignPass1YRight st options A).canvas A.canvas := by
  unfold alignPass1YRight
  split_ifs
  · exact alignVertStep_canvas_shrink st options _ _ A.canvas
      A.scales.yRight A.scales.xBottom A.scales.xTop
  · exact canvasLe_refl _

theorem alignPass1XBottom_canvas_shrink (st : PrivateData)
    (options : Options) (A : AlignData) :
    canvasLe (alignPass1XBottom st options A).canvas A.canvas := by
  unfold alignPass1XBottom
  split_ifs
  · exact alignHorzStep_canvas_shrink st options _ _ A.canvas
      A.scales.xBottom A.scales.yLeft A.scales.yRight
  · exact canvasLe_refl _

theorem alignPass1XTop_canvas_shrink (st : PrivateData)
    (options : Options) (A : AlignData) :
    canvasLe (alignPass1XTop st options A).canvas A.canvas := by
  unfold alignPass1XTop
  split_ifs
  · exact alignHorzStep_canvas_shrink st options _ _ A.canvas
      A.scales.xTop A.scales.yLeft A.scales.yRight
  · exact canvasLe_refl _

/-- The second pass of `alignScales` never changes the canvas
rectangle. -/
theorem alignScalesPass2_canvas (st : PrivateData) (options : Options)
    (A : AlignData) :
    (alignScalesPass2 st options A).canvas = A.canvas := rfl

theorem alignScales_canvas_shrink (st : PrivateData) (options : Options)
    (A : AlignData) :
    canvasLe (alignScales st options A).canvas A.canvas := by
  show canvasLe (alignScalesPass2 st options
    (alignScalesPass1 st options A)).canvas A.canvas
  rw [alignScalesPass2_canvas]
  show canvasLe (alignPass1XTop st options (alignPass1XBottom st options
    (alignPass1YRight st options (alignPass1YLeft st options A)))).canvas
    A.canvas
  exact canvasLe_trans (alignPass1XTop_canvas_shrink st options _)
    (canvasLe_trans (alignPass1XBottom_canvas_shrink st options _)
      (canvasLe_trans (alignPass1YRight_canvas_shrink st options _)
        (alignPass1YLeft_canvas_shrink st options A)))

/-- `qRound` is the identity on integer values. -/
theorem qRound_intCast (n : ℤ) : qRound (n : ℚ) = n := by
  unfold qRound
  split_ifs with h
  · rw [show ((n : ℚ) + 1/2) = (1/2 : ℚ) + (n : ℚ) from by ring,
      Int.floor_add_int]
    norm_num
  · rw [show ((n : ℚ) - 1/2) = (-(1/2) : ℚ) + (n : ℚ) from by ring,
      Int.ceil_add_int]
    norm_num

/-- `QRectF::toRect` is exact on a rectangle with integer
coordinates. -/
theorem toRect_intCast (a b c d : ℤ) :
    RectF.toRect ⟨(a : ℚ), (b : ℚ), (c : ℚ), (d : ℚ)⟩ = ⟨a, b, c, d⟩ := by
  simp [RectF.toRect, qRound_intCast]

/-- Subtracting a right-aligned strip of width `dim` from an integer
rectangle: the bounding rectangle of the difference is degenerate, or
the strip was degenerate, or the result stays left of the strip. -/
theorem regionSub_right_bound (ax ay aw ah dim : ℤ) :
    (regionSubtractedBounding ⟨ax, ay, aw, ah⟩
        ⟨ax + aw - dim, ay, dim, ah⟩).w ≤ 0 ∨
    (regionSubtractedBounding ⟨ax, ay, aw, ah⟩
        ⟨ax + aw - dim, ay, dim, ah⟩).h ≤ 0 ∨
    dim ≤ 0 ∨
    (regionSubtractedBounding ⟨ax, ay, aw, ah⟩
        ⟨ax + aw - dim, ay, dim, ah⟩).x +
      (regionSubtractedBounding ⟨ax, ay, aw, ah⟩
        ⟨ax + aw - dim, ay, dim, ah⟩).w ≤ ax + aw - dim := by
  simp only [regionSubtractedBounding]
  split_ifs <;> (try dsimp only at *) <;> (try simp_all) <;> omega

/-- Subtracting a left-aligned strip of width `dim` from an integer
rectangle. -/
theorem regionSub_left_bound (ax ay aw ah dim : ℤ) :
    (regionSubtractedBounding ⟨ax, ay, aw, ah⟩ ⟨ax, ay, dim, ah⟩).w ≤ 0 ∨
    (regionSubtractedBounding ⟨ax, ay, aw, ah⟩ ⟨ax, ay, dim, ah⟩).h ≤ 0 ∨
    dim ≤ 0 ∨
    ax + dim ≤
      (regionSubtractedBounding ⟨ax, ay, aw, ah⟩ ⟨ax, ay, dim, ah⟩).x := by
  simp only [regionSubtractedBounding]
  split_ifs <;> (try dsimp only at *) <;> (try simp_all) <;> omega

/-- Subtracting a top-aligned strip of height `dim` from an integer
rectangle. -/
theorem regionSub_top_bound (ax ay aw ah dim : ℤ) :
    (regionSubtractedBounding ⟨ax, ay, aw, ah⟩ ⟨ax, ay, aw, dim⟩).w ≤ 0 ∨
    (regionSubtractedBounding ⟨ax, ay, aw, ah⟩ ⟨ax, ay, aw, dim⟩).h ≤ 0 ∨
    dim ≤ 0 ∨
    ay + dim ≤
      (regionSubtractedBounding ⟨ax, ay, aw, ah⟩ ⟨ax, ay, aw, dim⟩).y := by
  simp only [regionSubtractedBounding]
  split_ifs <;> (try dsimp only at *) <;> (try simp_all) <;> omega

/-- Subtracting a bottom-aligned strip of height `dim` from an integer
rectangle. -/
theorem regionSub_bottom_bound (ax ay aw ah dim : ℤ) :
    (regionSubtractedBounding ⟨ax, ay, aw, ah⟩
        ⟨ax, ay + ah - dim, aw, dim⟩).w ≤ 0 ∨
    (regionSubtractedBounding ⟨ax, ay, aw, ah⟩
        ⟨ax, ay + ah - dim, aw, dim⟩).h ≤ 0 ∨
    dim ≤ 0 ∨
    (regionSubtractedBounding ⟨ax, ay, aw, ah⟩
        ⟨ax, ay + ah - dim, aw, dim⟩).y +
      (regionSubtractedBounding ⟨ax, ay, aw, ah⟩
        ⟨ax, ay + ah - dim, aw, dim⟩).h ≤ ay + ah - dim := by
  simp only [regionSubtractedBounding]
  split_ifs <;> (try dsimp only at *) <;> (try simp_all) <;> omega

/-- `QRectF::isEmpty` as a proposition. -/
theorem isEmpty_iff (r : RectF) :
    r.isEmpty = true ↔ (r.w ≤ 0 ∨ r.h ≤ 0) := by
  simp [RectF.isEmpty]

/-- The legend rectangle produced for a left legend. -/
theorem layoutLegend_left (st : PrivateData) (options : Options)
    (rect : RectF) (h : st.legendPos = LeftLegend) :
    layoutLegend st options rect =
      ⟨rect.x, rect.y, (legendDim st options rect : ℚ), rect.h⟩ := by
  simp [layoutLegend, h, RectF.setWidth]

/-- The legend rectangle produced for a right legend. -/
theorem layoutLegend_right (st : PrivateData) (options : Options)
    (rect : RectF) (h : st.legendPos = RightLegend) :
    layoutLegend st options rect =
      ⟨rect.x + rect.w - (legendDim st options rect : ℚ), rect.y,
       (legendDim st options rect : ℚ), rect.h⟩ := by
  norm_num [layoutLegend, h, RightLegend, LeftLegend, RectF.setX,
    RectF.setLeft, RectF.setWidth, RectF.right]

/-- The legend rectangle produced for a top legend. -/
theorem layoutLegend_top (st : PrivateData) (options : Options)
    (rect : RectF) (h : st.legendPos = TopLegend) :
    layoutLegend st options rect =
      ⟨rect.x, rect.y, rect.w, (legendDim st options rect : ℚ)⟩ := by
  norm_num [layoutLegend, h, TopLegend, LeftLegend, RightLegend,
    RectF.setHeight]

/-- The legend rectangle produced for a bottom legend. -/
theorem layoutLegend_bottom (st : PrivateData) (options : Options)
    (rect : RectF) (h : st.legendPos = BottomLegend) :
    layoutLegend st options rect =
      ⟨rect.x, rect.y + rect.h - (legendDim st options rect : ℚ), rect.w,
       (legendDim st options rect : ℚ)⟩ := by
  norm_num [layoutLegend, h, BottomLegend, LeftLegend, RightLegend,
    TopLegend, RectF.setY, RectF.setTop, RectF.setHeight, RectF.bottom]

/-- Placing a right legend on an integer rectangle leaves the working
rectangle separated from (or degenerate against) the legend
rectangle. -/
theorem placeLegend_sep_right (st1 : PrivateData) (plot : Plot)
    (options : Options) (px py pw ph : ℤ)
    (h : st1.legendPos = RightLegend)
    (hempty : st1.legendRect.isEmpty = true) :
    LegendSep
      (placeLegendBlock st1 plot options
        ⟨(px : ℚ), (py : ℚ), (pw : ℚ), (ph : ℚ)⟩).1
      (placeLegendBlock st1 plot options
        ⟨(px : ℚ), (py : ℚ), (pw : ℚ), (ph : ℚ)⟩).2 := by
  set R : RectF := ⟨(px : ℚ), (py : ℚ), (pw : ℚ), (ph : ℚ)⟩ with hRdef
  set dim : ℤ := legendDim st1 options R with hdimdef
  have hL : layoutLegend st1 options R =
      ⟨(px : ℚ) + (pw : ℚ) - (dim : ℚ), (py : ℚ), (dim : ℚ), (ph : ℚ)⟩ :=
    layoutLegend_right st1 options R h
  have hLt : (layoutLegend st1 options R).toRect =
      ⟨px + pw - dim, py, dim, ph⟩ := by
    rw [hL, show ((px : ℚ) + (pw : ℚ) - (dim : ℚ)) =
        ((px + pw - dim : ℤ) : ℚ) from by push_cast; ring]
    exact toRect_intCast _ _ _ _
  have hRt : R.toRect = ⟨px, py, pw, ph⟩ := toRect_intCast px py pw ph
  have hs : (0 : ℚ) ≤ (st1.spacing : ℚ) := Nat.cast_nonneg _
  simp only [placeLegendBlock]
  by_cases hg : ¬options.ignoreLegend = true ∧ plot.hasLegend = true ∧
      ¬plot.legend.isEmptyB = true
  · rw [if_pos hg, hRt, hLt, hL, h,
      if_neg (show ¬(RightLegend = LeftLegend) from by
        norm_num [RightLegend, LeftLegend]),
      if_pos rfl]
    simp only [LegendSep]
    rcases regionSub_right_bound px py pw ph dim with hb | hb | hb | hb
    · refine Or.inr (Or.inl ?_)
      have hbq : ((regionSubtractedBounding ⟨px, py, pw, ph⟩
          ⟨px + pw - dim, py, dim, ph⟩).w : ℚ) ≤ 0 := by exact_mod_cast hb
      simp only [RectF.setRight, RectF.right, RectI.toRectF]
      linarith
    · refine Or.inr (Or.inr (Or.inl ?_))
      have hbq : ((regionSubtractedBounding ⟨px, py, pw, ph⟩
          ⟨px + pw - dim, py, dim, ph⟩).h : ℚ) ≤ 0 := by exact_mod_cast hb
      simp only [RectF.setRight, RectI.toRectF]
      linarith
    · refine Or.inl ?_
      have hbq : ((dim : ℤ) : ℚ) ≤ 0 := by exact_mod_cast hb
      simp only [isEmpty_iff]
      exact Or.inl hbq
    · refine Or.inr (Or.inr (Or.inr (Or.inl ⟨Or.inr trivial, Or.inl ?_⟩)))
      have hbq : (((regionSubtractedBounding ⟨px, py, pw, ph⟩
          ⟨px + pw - dim, py, dim, ph⟩).x +
          (regionSubtractedBounding ⟨px, py, pw, ph⟩
          ⟨px + pw - dim, py, dim, ph⟩).w : ℤ) : ℚ) ≤
          ((px + pw - dim : ℤ) : ℚ) := by exact_mod_cast hb
      simp only [RectF.setRight, RectF.right, RectI.toRectF]
      push_cast at hbq ⊢
      linarith
  · rw [if_neg hg]
    simp only [LegendSep]
    exact Or.inl hempty

/-- Placing a left legend on an integer rectangle leaves the working
rectangle separated from (or degenerate against) the legend
rectangle. -/
theorem placeLegend_sep_left (st1 : PrivateData) (plot : Plot)
    (options : Options) (px py pw ph : ℤ)
    (h : st1.legendPos = LeftLegend)
    (hempty : st1.legendRect.isEmpty = true) :
    LegendSep
      (placeLegendBlock st1 plot options
        ⟨(px : ℚ), (py : ℚ), (pw : ℚ), (ph : ℚ)⟩).1
      (placeLegendBlock st1 plot options
        ⟨(px : ℚ), (py : ℚ), (pw : ℚ), (ph : ℚ)⟩).2 := by
  set R : RectF := ⟨(px : ℚ), (py : ℚ), (pw : ℚ), (ph : ℚ)⟩ with hRdef
  set dim : ℤ := legendDim st1 options R with hdimdef
  have hL : layoutLegend st1 options R =
      ⟨(px : ℚ), (py : ℚ), (dim : ℚ), (ph : ℚ)⟩ :=
    layoutLegend_left st1 options R h
  have hLt : (layoutLegend st1 options R).toRect = ⟨px, py, dim, ph⟩ := by
    rw [hL]
    exact toRect_intCast _ _ _ _
  have hRt : R.toRect = ⟨px, py, pw, ph⟩ := toRect_intCast px py pw ph
  have hs : (0 : ℚ) ≤ (st1.spacing : ℚ) := Nat.cast_nonneg _
  simp only [placeLegendBlock]
  by_cases hg : ¬options.ignoreLegend = true ∧ plot.hasLegend = true ∧
      ¬plot.legend.isEmptyB = true
  · rw [if_pos hg, hRt, hLt, hL, h, if_pos rfl]
    simp only [LegendSep]
    rcases regionSub_left_bound px py pw ph dim with hb | hb | hb | hb
    · refine Or.inr (Or.inl ?_)
      have hbq : ((regionSubtractedBounding ⟨px, py, pw, ph⟩
          ⟨px, py, dim, ph⟩).w : ℚ) ≤ 0 := by exact_mod_cast hb
      simp only [RectF.setLeft, RectF.left, RectI.toRectF]
      linarith
    · refine Or.inr (Or.inr (Or.inl ?_))
      have hbq : ((regionSubtractedBounding ⟨px, py, pw, ph⟩
          ⟨px, py, dim, ph⟩).h : ℚ) ≤ 0 := by exact_mod_cast hb
      simp only [RectF.setLeft, RectI.toRectF]
      linarith
    · refine Or.inl ?_
      have hbq : ((dim : ℤ) : ℚ) ≤ 0 := by exact_mod_cast hb
      simp only [isEmpty_iff]
      exact Or.inl hbq
    · refine Or.inr (Or.inr (Or.inr (Or.inl ⟨Or.inl trivial, Or.inr ?_⟩)))
      have hbq : ((px + dim : ℤ) : ℚ) ≤
          ((regionSubtractedBounding ⟨px, py, pw, ph⟩
            ⟨px, py, dim, ph⟩).x : ℚ) := by exact_mod_cast hb
      simp only [RectF.setLeft, RectF.left, RectI.toRectF]
      push_cast at hbq ⊢
      linarith
  · rw [if_neg hg]
    simp only [LegendSep]
    exact Or.inl hempty

/-- Placing a top legend on an integer rectangle leaves the working
rectangle separated from (or degenerate against) the legend
rectangle. -/
theorem placeLegend_sep_top (st1 : PrivateData) (plot : Plot)
    (options : Options) (px py pw ph : ℤ)
    (h : st1.legendPos = TopLegend)
    (hempty : st1.legendRect.isEmpty = true) :
    LegendSep
      (placeLegendBlock st1 plot options
        ⟨(px : ℚ), (py : ℚ), (pw : ℚ), (ph : ℚ)⟩).1
      (placeLegendBlock st1 plot options
        ⟨(px : ℚ), (py : ℚ), (pw : ℚ), (ph : ℚ)⟩).2 := by
  set R : RectF := ⟨(px : ℚ), (py : ℚ), (pw : ℚ), (ph : ℚ)⟩ with hRdef
  set dim : ℤ := legendDim st1 options R with hdimdef
  have hL : layoutLegend st1 options R =
      ⟨(px : ℚ), (py : ℚ), (pw : ℚ), (dim : ℚ)⟩ :=
    layoutLegend_top st1 options R h
  have hLt : (layoutLegend st1 options R).toRect = ⟨px, py, pw, dim⟩ := by
    rw [hL]
    exact toRect_intCast _ _ _ _
  have hRt : R.toRect = ⟨px, py, pw, ph⟩ := toRect_intCast px py pw ph
  have hs : (0 : ℚ) ≤ (st1.spacing : ℚ) := Nat.cast_nonneg _
  simp only [placeLegendBlock]
  by_cases hg : ¬options.ignoreLegend = true ∧ plot.hasLegend = true ∧
      ¬plot.legend.isEmptyB = true
  · rw [if_pos hg, hRt, hLt, hL, h,
      if_neg (show ¬(TopLegend = LeftLegend) from by
        norm_num [TopLegend, LeftLegend]),
      if_neg (show ¬(TopLegend = RightLegend) from by
        norm_num [TopLegend, RightLegend]),
      if_pos rfl]
    simp only [LegendSep]
    rcases regionSub_top_bound px py pw ph dim with hb | hb | hb | hb
    · refine Or.inr (Or.inl ?_)
      have hbq : ((regionSubtractedBounding ⟨px, py, pw, ph⟩
          ⟨px, py, pw, dim⟩).w : ℚ) ≤ 0 := by exact_mod_cast hb
      simp only [RectF.setTop, RectI.toRectF]
      linarith
    · refine Or.inr (Or.inr (Or.inl ?_))
      have hbq : ((regionSubtractedBounding ⟨px, py, pw, ph⟩
          ⟨px, py, pw, dim⟩).h : ℚ) ≤ 0 := by exact_mod_cast hb
      simp only [RectF.setTop, RectF.top, RectI.toRectF]
      linarith
    · refine Or.inl ?_
      have hbq : ((dim : ℤ) : ℚ) ≤ 0 := by exact_mod_cast hb
      simp only [isEmpty_iff]
      exact Or.inr hbq
    · refine Or.inr (Or.inr (Or.inr (Or.inr ⟨Or.inr trivial, Or.inr ?_⟩)))
      have hbq : ((py + dim : ℤ) : ℚ) ≤
          ((regionSubtractedBounding ⟨px, py, pw, ph⟩
            ⟨px, py, pw, dim⟩).y : ℚ) := by exact_mod_cast hb
      simp only [RectF.setTop, RectF.top, RectI.toRectF]
      push_cast at hbq ⊢
      linarith
  · rw [if_neg hg]
    simp only [LegendSep]
    exact Or.inl hempty

/-- Placing a bottom legend on an integer rectangle leaves the working
rectangle separated from (or degenerate against) the legend
rectangle. -/
theorem placeLegend_sep_bottom (st1 : PrivateData) (plot : Plot)
    (options : Options) (px py pw ph : ℤ)
    (h : st1.legendPos = BottomLegend)
    (hempty : st1.legendRect.isEmpty = true) :
    LegendSep
      (placeLegendBlock st1 plot options
        ⟨(px : ℚ), (py : ℚ), (pw : ℚ), (ph : ℚ)⟩).1
      (placeLegendBlock st1 plot options
        ⟨(px : ℚ), (py : ℚ), (pw : ℚ), (ph : ℚ)⟩).2 := by
  set R : RectF := ⟨(px : ℚ), (py : ℚ), (pw : ℚ), (ph : ℚ)⟩ with hRdef
  set dim : ℤ := legendDim st1 options R with hdimdef
  have hL : layoutLegend st1 options R =
      ⟨(px : ℚ), (py : ℚ) + (ph : ℚ) - (dim : ℚ), (pw : ℚ), (dim : ℚ)⟩ :=
    layoutLegend_bottom st1 options R h
  have hLt : (layoutLegend st1 options R).toRect =
      ⟨px, py + ph - dim, pw, dim⟩ := by
    rw [hL, show ((py : ℚ) + (ph : ℚ) - (dim : ℚ)) =
        ((py + ph - dim : ℤ) : ℚ) from by push_cast; ring]
    exact toRect_intCast _ _ _ _
  have hRt : R.toRect = ⟨px, py, pw, ph⟩ := toRect_intCast px py pw ph
  have hs : (0 : ℚ) ≤ (st1.spacing : ℚ) := Nat.cast_nonneg _
  simp only [placeLegendBlock]
  by_cases hg : ¬options.ignoreLegend = true ∧ plot.hasLegend = true ∧
      ¬plot.legend.isEmptyB = true
  · rw [if_pos hg, hRt, hLt, hL, h,
      if_neg (show ¬(BottomLegend = LeftLegend) from by
        norm_num [BottomLegend, LeftLegend]),
      if_neg (show ¬(BottomLegend = RightLegend) from by
        norm_num [BottomLegend, RightLegend]),
      if_neg (show ¬(BottomLegend = TopLegend) from by
        norm_num [BottomLegend, TopLegend]),
      if_pos rfl]
    simp only [LegendSep]
    rcases regionSub_bottom_bound px py pw ph dim with hb | hb | hb | hb
    · refine Or.inr (Or.inl ?_)
      have hbq : ((regionSubtractedBounding ⟨px, py, pw, ph⟩
          ⟨px, py + ph - dim, pw, dim⟩).w : ℚ) ≤ 0 := by exact_mod_cast hb
      simp only [RectF.setBottom, RectI.toRectF]
      linarith
    · refine Or.inr (Or.inr (Or.inl ?_))
      have hbq : ((regionSubtractedBounding ⟨px, py, pw, ph⟩
          ⟨px, py + ph - dim, pw, dim⟩).h : ℚ) ≤ 0 := by exact_mod_cast hb
      simp only [RectF.setBottom, RectF.bottom, RectI.toRectF]
      linarith
    · refine Or.inl ?_
      have hbq : ((dim : ℤ) : ℚ) ≤ 0 := by exact_mod_cast hb
      simp only [isEmpty_iff]
      exact Or.inr hbq
    · refine Or.inr (Or.inr (Or.inr (Or.inr ⟨Or.inl trivial, Or.inl ?_⟩)))
      have hbq : (((regionSubtractedBounding ⟨px, py, pw, ph⟩
          ⟨px, py + ph - dim, pw, dim⟩).y +
          (regionSubtractedBounding ⟨px, py, pw, ph⟩
          ⟨px, py + ph - dim, pw, dim⟩).h : ℤ) : ℚ) ≤
          ((py + ph - dim : ℤ) : ℚ) := by exact_mod_cast hb
      simp only [RectF.setBottom, RectF.bottom, RectI.toRectF]
      push_cast at hbq ⊢
      linarith
  · rw [if_neg hg]
    simp only [LegendSep]
    exact Or.inl hempty

/-- After the pre-pass of `activate` on an integer plot rectangle, the
working rectangle is separated from (or degenerate against) the stored
legend rectangle. -/
theorem activatePre_legendSep (st : PrivateData) (plot : Plot)
    (options : Options) (px py pw ph : ℤ)
    (hpos : st.legendPos = LeftLegend ∨ st.legendPos = RightLegend ∨
      st.legendPos = BottomLegend ∨ st.legendPos = TopLegend) :
    LegendSep
      (activatePre st plot ⟨(px : ℚ), (py : ℚ), (pw : ℚ), (ph : ℚ)⟩
        options).1
      (activatePre st plot ⟨(px : ℚ), (py : ℚ), (pw : ℚ), (ph : ℚ)⟩
        options).2 := by
  have heq : activatePre st plot ⟨(px : ℚ), (py : ℚ), (pw : ℚ), (ph : ℚ)⟩
      options =
      placeLegendBlock
        { invalidate st with
            layoutData := dataInit plot
              ⟨(px : ℚ), (py : ℚ), (pw : ℚ), (ph : ℚ)⟩
              (invalidate st).layoutData }
        plot options ⟨(px : ℚ), (py : ℚ), (pw : ℚ), (ph : ℚ)⟩ := rfl
  rw [heq]
  have hpos1 : ({ invalidate st with
      layoutData := dataInit plot
        ⟨(px : ℚ), (py : ℚ), (pw : ℚ), (ph : ℚ)⟩
        (invalidate st).layoutData } : PrivateData).legendPos =
      st.legendPos := rfl
  have hemp : ({ invalidate st with
      layoutData := dataInit plot
        ⟨(px : ℚ), (py : ℚ), (pw : ℚ), (ph : ℚ)⟩
        (invalidate st).layoutData } : PrivateData).legendRect.isEmpty =
      true := by
    simp [invalidate, RectF.isEmpty, RectF.zero]
  rcases hpos with h | h | h | h
  · exact placeLegend_sep_left _ plot options px py pw ph
      (hpos1.trans h) hemp
  · exact placeLegend_sep_right _ plot options px py pw ph
      (hpos1.trans h) hemp
  · exact placeLegend_sep_bottom _ plot options px py pw ph
      (hpos1.trans h) hemp
  · exact placeLegend_sep_top _ plot options px py pw ph
      (hpos1.trans h) hemp

/-- Every value the expand loop stabilizes at is pointwise
nonnegative. -/
theorem expandReaches_nonneg {st : PrivateData} {options : Options}
    {rect : RectF} {d : Dims} (h : ExpandReaches st options rect d) :
    Dims.le Dims.zero d := by
  obtain ⟨n, hn, -⟩ := h
  have hall : ∀ m : ℕ,
      Dims.le Dims.zero ((stepExpand st options rect)^[m] Dims.zero) := by
    intro m
    induction m with
    | zero => exact dimsLe_refl Dims.zero
    | succ k ih =>
      rw [Function.iterate_succ_apply']
      exact dimsLe_trans ih (stepExpand_le st options rect _)
  rw [← hn]
  exact hall n

/-- With nonnegative axis dimensions, the canvas rectangle stays inside
the working rectangle. -/
theorem computeCanvasRect_le (rect : RectF) (d : Dims)
    (h : Dims.le Dims.zero d) : canvasLe (computeCanvasRect rect d) rect := by
  obtain ⟨-, -, h3, h4, h5, h6⟩ := h
  have c3 : (0 : ℚ) ≤ (d.axis.yLeft : ℚ) := by
    exact_mod_cast (show (0 : ℤ) ≤ d.axis.yLeft from h3)
  have c4 : (0 : ℚ) ≤ (d.axis.yRight : ℚ) := by
    exact_mod_cast (show (0 : ℤ) ≤ d.axis.yRight from h4)
  have c5 : (0 : ℚ) ≤ (d.axis.xBottom : ℚ) := by
    exact_mod_cast (show (0 : ℤ) ≤ d.axis.xBottom from h5)
  have c6 : (0 : ℚ) ≤ (d.axis.xTop : ℚ) := by
    exact_mod_cast (show (0 : ℤ) ≤ d.axis.xTop from h6)
  unfold canvasLe computeCanvasRect
  refine ⟨?_, ?_, ?_, ?_⟩ <;> dsimp only <;> linarith

/-- Geometry of the title block: the working rectangle keeps its
horizontal extent and bottom edge and only its top edge moves down;
when a title band is assigned it ends above the new top edge. -/
theorem placeTitle_geom (st : PrivateData) (rect : RectF) (d : Dims) :
    (placeTitle st rect d).2.x = rect.x ∧
    (placeTitle st rect d).2.w = rect.w ∧
    rect.y ≤ (placeTitle st rect d).2.y ∧
    (placeTitle st rect d).2.y + (placeTitle st rect d).2.h =
      rect.y + rect.h ∧
    (0 < d.title →
      (placeTitle st rect d).1.titleRect.y +
        (placeTitle st rect d).1.titleRect.h ≤
        (placeTitle st rect d).2.y) ∧
    (¬0 < d.title → (placeTitle st rect d).1.titleRect = st.titleRect) ∧
    (placeTitle st rect d).1.footerRect = st.footerRect ∧
    (placeTitle st rect d).1.legendRect = st.legendRect ∧
    (placeTitle st rect d).1.legendPos = st.legendPos ∧
    (placeTitle st rect d).1.spacing = st.spacing ∧
    (placeTitle st rect d).1.layoutData = st.layoutData := by
  have hs : (0 : ℚ) ≤ (st.spacing : ℚ) := Nat.cast_nonneg _
  simp only [placeTitle]
  split_ifs with h1 h2
  · have ht : (0 : ℚ) < (d.title : ℚ) := by exact_mod_cast h1
    refine ⟨rfl, rfl, ?_, ?_, fun _ => ?_, fun hc => absurd h1 hc,
      rfl, rfl, rfl, rfl, rfl⟩ <;>
      simp [RectF.setTop, RectF.setX, RectF.setLeft, RectF.setWidth,
        RectF.bottom, RectF.left] <;>
      linarith
  · have ht : (0 : ℚ) < (d.title : ℚ) := by exact_mod_cast h1
    refine ⟨rfl, rfl, ?_, ?_, fun _ => ?_, fun hc => absurd h1 hc,
      rfl, rfl, rfl, rfl, rfl⟩ <;>
      simp [RectF.setTop, RectF.bottom] <;>
      linarith
  · exact ⟨rfl, rfl, le_refl _, rfl, fun hT => absurd hT h1, fun _ => rfl,
      rfl, rfl, rfl, rfl, rfl⟩

/-- Geometry of the footer block: the working rectangle keeps its
horizontal extent and top edge and only its bottom edge moves up; when
a footer band is assigned it starts below the new bottom edge. -/
theorem placeFooter_geom (st1 : PrivateData) (rect1 : RectF) (d : Dims) :
    (placeFooter st1 rect1 d).2.x = rect1.x ∧
    (placeFooter st1 rect1 d).2.w = rect1.w ∧
    (placeFooter st1 rect1 d).2.y = rect1.y ∧
    (placeFooter st1 rect1 d).2.y + (placeFooter st1 rect1 d).2.h ≤
      rect1.y + rect1.h ∧
    (0 < d.footer →
      (placeFooter st1 rect1 d).2.y + (placeFooter st1 rect1 d).2.h ≤
        (placeFooter st1 rect1 d).1.footerRect.y) ∧
    (¬0 < d.footer →
      (placeFooter st1 rect1 d).1.footerRect = st1.footerRect) ∧
    (placeFooter st1 rect1 d).1.titleRect = st1.titleRect ∧
    (placeFooter st1 rect1 d).1.legendRect = st1.legendRect ∧
    (placeFooter st1 rect1 d).1.legendPos = st1.legendPos ∧
    (placeFooter st1 rect1 d).1.spacing = st1.spacing ∧
    (placeFooter st1 rect1 d).1.layoutData = st1.layoutData := by
  have hs : (0 : ℚ) ≤ (st1.spacing : ℚ) := Nat.cast_nonneg _
  simp only [placeFooter]
  split_ifs with h1 h2
  · have hf : (0 : ℚ) < (d.footer : ℚ) := by exact_mod_cast h1
    refine ⟨rfl, rfl, rfl, ?_, fun _ => ?_, fun hc => absurd h1 hc,
      rfl, rfl, rfl, rfl, rfl⟩ <;>
      simp [RectF.setBottom, RectF.setX, RectF.setLeft, RectF.setWidth,
        RectF.bottom, RectF.top, RectF.left] <;>
      linarith
  · have hf : (0 : ℚ) < (d.footer : ℚ) := by exact_mod_cast h1
    refine ⟨rfl, rfl, rfl, ?_, fun _ => ?_, fun hc => absurd h1 hc,
      rfl, rfl, rfl, rfl, rfl⟩ <;>
      simp [RectF.setBottom, RectF.bottom, RectF.top] <;>
      linarith
  · exact ⟨rfl, rfl, rfl, le_refl _, fun hF => absurd hF h1, fun _ => rfl,
      rfl, rfl, rfl, rfl, rfl⟩

/-- The working rectangle after the title and footer blocks lies inside
the original working rectangle. -/
theorem placeTitleFooter_rect_le (st : PrivateData) (rect : RectF)
    (d : Dims) : canvasLe (placeTitleFooter st rect d).2 rect := by
  have h1 := placeTitle_geom st rect d
  have h2 := placeFooter_geom (placeTitle st rect d).1
    (placeTitle st rect d).2 d
  show canvasLe
    (placeFooter (placeTitle st rect d).1 (placeTitle st rect d).2 d).2 rect
  unfold canvasLe
  refine ⟨?_, ?_, ?_, ?_⟩
  · rw [h2.1, h1.1]
  · rw [h2.1, h2.2.1, h1.1, h1.2.1]
  · rw [h2.2.2.1]
    exact h1.2.2.1
  · exact h2.2.2.2.1.trans (le_of_eq h1.2.2.2.1)

/-- The output title and footer rectangles of the post pass are the
ones assigned by the title/footer blocks, and the output canvas
rectangle lies inside the canvas slab computed from the working
rectangle. -/
theorem activatePost_main_fields (st : PrivateData) (options : Options)
    (rect : RectF) (d : Dims) :
    (activatePost st options rect d).titleRect =
      (placeTitleFooter st rect d).1.titleRect ∧
    (activatePost st options rect d).footerRect =
      (placeTitleFooter st rect d).1.footerRect ∧
    canvasLe (activatePost st options rect d).canvasRect
      (computeCanvasRect (placeTitleFooter st rect d).2 d) := by
  simp only [activatePost]
  split_ifs <;>
    exact ⟨rfl, rfl, alignScales_canvas_shrink _ _ _⟩

/-- The output legend rectangle of the post pass: unchanged when the
stored one is empty, and in any case `alignLegend` moves it only along
the canvas edge it is attached to. -/
theorem activatePost_legend (st : PrivateData) (options : Options)
    (rect : RectF) (d : Dims) :
    (st.legendRect.isEmpty = true →
      (activatePost st options rect d).legendRect = st.legendRect) ∧
    ((st.legendPos = BottomLegend ∨ st.legendPos = TopLegend) →
      (activatePost st options rect d).legendRect.y = st.legendRect.y ∧
      (activatePost st options rect d).legendRect.h = st.legendRect.h) ∧
    (¬(st.legendPos = BottomLegend ∨ st.legendPos = TopLegend) →
      (activatePost st options rect d).legendRect.x = st.legendRect.x ∧
      (activatePost st options rect d).legendRect.w = st.legendRect.w) := by
  have hA := placeTitle_geom st rect d
  have hB := placeFooter_geom (placeTitle st rect d).1
    (placeTitle st rect d).2 d
  have hlr : (placeTitleFooter st rect d).1.legendRect = st.legendRect :=
    hB.2.2.2.2.2.2.2.1.trans hA.2.2.2.2.2.2.2.1
  have hlp : (placeTitleFooter st rect d).1.legendPos = st.legendPos :=
    hB.2.2.2.2.2.2.2.2.1.trans hA.2.2.2.2.2.2.2.2.1
  simp only [activatePost]
  set q := placeTitleFooter st rect d with hqdef
  set A := alignScales q.1 options
    ⟨computeCanvasRect q.2 d,
     initialScaleRects q.1 (computeCanvasRect q.2 d) d⟩ with hAdef
  set st2 : PrivateData :=
    { q.1 with canvasRect := A.canvas, scaleRect := A.scales } with hst2def
  split_ifs with hne
  · exact ⟨fun _ => hlr,
      fun _ => ⟨congrArg RectF.y hlr, congrArg RectF.h hlr⟩,
      fun _ => ⟨congrArg RectF.x hlr, congrArg RectF.w hlr⟩⟩
  · refine ⟨fun he => ?_, fun hbt => ?_, fun hbt => ?_⟩
    · have hx : q.1.legendRect.isEmpty = true := by
        rw [hlr]
        exact he
      exact absurd hx hne
    · have hbt2 : st2.legendPos = BottomLegend ∨
          st2.legendPos = TopLegend := by
        rcases hbt with h | h
        · exact Or.inl (hlp.trans h)
        · exact Or.inr (hlp.trans h)
      have hc := (alignLegend_coords st2 A.canvas st2.legendRect).1 hbt2
      exact ⟨hc.1.trans (congrArg RectF.y hlr),
        hc.2.trans (congrArg RectF.h hlr)⟩
    · have hbt2 : ¬(st2.legendPos = BottomLegend ∨
          st2.legendPos = TopLegend) := by
        intro hx
        refine hbt ?_
        rcases hx with h | h
        · exact Or.inl (hlp.symm.trans h)
        · exact Or.inr (hlp.symm.trans h)
      have hc := (alignLegend_coords st2 A.canvas st2.legendRect).2 hbt2
      exact ⟨hc.1.trans (congrArg RectF.x hlr),
        hc.2.trans (congrArg RectF.w hlr)⟩

/-- C5 (amended): after every successful run of `activate` on a plot
rectangle with integer coordinates (and a legend position that is one
of the four enum values, the C++ type invariant of the field), the
resulting `canvasRect` has no interior intersection with `titleRect`,
`footerRect` or `legendRect`; the rectangles may share edges but never
overlap in area. -/
theorem activate_nonoverlap (st : PrivateData) (plot : Plot)
    (options : Options) (px py pw ph : ℤ) (stOut : PrivateData)
    (hpos : st.legendPos = LeftLegend ∨ st.legendPos = RightLegend ∨
      st.legendPos = BottomLegend ∨ st.legendPos = TopLegend)
    (hact : ActivateRel st plot ⟨(px : ℚ), (py : ℚ), (pw : ℚ), (ph : ℚ)⟩
      options stOut) :
    RectF.interiorDisjoint stOut.canvasRect stOut.titleRect ∧
    RectF.interiorDisjoint stOut.canvasRect stOut.footerRect ∧
    RectF.interiorDisjoint stOut.canvasRect stOut.legendRect := by
  obtain ⟨d, hreach, hout⟩ := hact
  set R : RectF := ⟨(px : ℚ), (py : ℚ), (pw : ℚ), (ph : ℚ)⟩ with hRdef
  set st1 := (activatePre st plot R options).1 with hst1def
  set rect2 := (activatePre st plot R options).2 with hrect2def
  have hd0 : Dims.le Dims.zero d := expandReaches_nonneg hreach
  have hfields := activatePost_main_fields st1 options rect2 d
  have hleg := activatePost_legend st1 options rect2 d
  have hsep : LegendSep st1 rect2 :=
    activatePre_legendSep st plot options px py pw ph hpos
  have hT := placeTitle_geom st1 rect2 d
  have hF := placeFooter_geom (placeTitle st1 rect2 d).1
    (placeTitle st1 rect2 d).2 d
  have hq : canvasLe (placeTitleFooter st1 rect2 d).2 rect2 :=
    placeTitleFooter_rect_le st1 rect2 d
  have hc0 : canvasLe (computeCanvasRect (placeTitleFooter st1 rect2 d).2 d)
      (placeTitleFooter st1 rect2 d).2 :=
    computeCanvasRect_le _ d hd0
  have hcq : canvasLe stOut.canvasRect (placeTitleFooter st1 rect2 d).2 := by
    rw [hout]
    exact canvasLe_trans hfields.2.2 hc0
  have hcanvas : canvasLe stOut.canvasRect rect2 :=
    canvasLe_trans hcq hq
  have hzT : st1.titleRect = RectF.zero :=
    (placeLegendBlock_preserves
      { invalidate st with
          layoutData := dataInit plot R (invalidate st).layoutData }
      plot options R).1.trans rfl
  have hzF : st1.footerRect = RectF.zero :=
    (placeLegendBlock_preserves
      { invalidate st with
          layoutData := dataInit plot R (invalidate st).layoutData }
      plot options R).2.1.trans rfl
  refine ⟨?_, ?_, ?_⟩
  · -- title
    by_cases ht : 0 < d.title
    · have h5 := hT.2.2.2.2.1 ht
      have htr : stOut.titleRect = (placeTitle st1 rect2 d).1.titleRect := by
        rw [hout]
        exact hfields.1.trans hF.2.2.2.2.2.2.1
      apply interiorDisjoint_of_top_ge
      rw [htr]
      have hy : (placeTitleFooter st1 rect2 d).2.y ≤ stOut.canvasRect.y :=
        hcq.2.2.1
      have hy2 : (placeTitleFooter st1 rect2 d).2.y =
          (placeTitle st1 rect2 d).2.y := hF.2.2.1
      linarith
    · have htr : stOut.titleRect = RectF.zero := by
        rw [hout]
        exact (hfields.1.trans
          (hF.2.2.2.2.2.2.1.trans (hT.2.2.2.2.2.1 ht))).trans hzT
      apply interiorDisjoint_of_h_nonpos_right
      rw [htr]
      norm_num [RectF.zero]
  · -- footer
    by_cases hf : 0 < d.footer
    · have h5 := hF.2.2.2.2.1 hf
      have hfr : stOut.footerRect =
          (placeFooter (placeTitle st1 rect2 d).1
            (placeTitle st1 rect2 d).2 d).1.footerRect := by
        rw [hout]
        exact hfields.2.1
      apply interiorDisjoint_of_bottom_le
      rw [hfr]
      have hb : stOut.canvasRect.y + stOut.canvasRect.h ≤
          (placeFooter (placeTitle st1 rect2 d).1
            (placeTitle st1 rect2 d).2 d).2.y +
            (placeFooter (placeTitle st1 rect2 d).1
              (placeTitle st1 rect2 d).2 d).2.h := hcq.2.2.2
      linarith
    · have hfr : stOut.footerRect = RectF.zero := by
        rw [hout]
        exact (hfields.2.1.trans
          ((hF.2.2.2.2.2.1 hf).trans hT.2.2.2.2.2.2.1)).trans hzF
      apply interiorDisjoint_of_h_nonpos_right
      rw [hfr]
      norm_num [RectF.zero]
  · -- legend
    rcases (show st1.legendRect.isEmpty = true ∨ rect2.w ≤ 0 ∨
        rect2.h ≤ 0 ∨
        ((st1.legendPos = LeftLegend ∨ st1.legendPos = RightLegend) ∧
          (rect2.x + rect2.w ≤ st1.legendRect.x ∨
            st1.legendRect.x + st1.legendRect.w ≤ rect2.x)) ∨
        ((st1.legendPos = BottomLegend ∨ st1.legendPos = TopLegend) ∧
          (rect2.y + rect2.h ≤ st1.legendRect.y ∨
            st1.legendRect.y + st1.legendRect.h ≤ rect2.y)) from hsep)
      with hemp | hw | hh | ⟨hp4, hside⟩ | ⟨hp5, hside⟩
    · have hlrect : stOut.legendRect = st1.legendRect := by
        rw [hout]
        exact hleg.1 hemp
      rcases (isEmpty_iff _).1 hemp with hw0 | hh0
    -- empty legend: no width or no height
      · apply interiorDisjoint_of_w_nonpos_right
        rw [hlrect]
        exact hw0
      · apply interiorDisjoint_of_h_nonpos_right
        rw [hlrect]
        exact hh0
    · apply interiorDisjoint_of_w_nonpos_left
      have h1 := hcanvas.1
      have h2 := hcanvas.2.1
      linarith
    · apply interiorDisjoint_of_h_nonpos_left
      have h1 := hcanvas.2.2.1
      have h2 := hcanvas.2.2.2
      linarith
    · have hnbt : ¬(st1.legendPos = BottomLegend ∨
          st1.legendPos = TopLegend) := by
        rcases hp4 with h | h <;> rw [h] <;>
          norm_num [LeftLegend, RightLegend, BottomLegend, TopLegend]
      have hxw : stOut.legendRect.x = st1.legendRect.x ∧
          stOut.legendRect.w = st1.legendRect.w := by
        rw [hout]
        exact hleg.2.2 hnbt
      rcases hside with hs1 | hs2
      · apply interiorDisjoint_of_right_le
        rw [hxw.1]
        have h2 := hcanvas.2.1
        linarith
      · apply interiorDisjoint_of_left_ge
        rw [hxw.1, hxw.2]
        have h1 := hcanvas.1
        linarith
    · have hyh : stOut.legendRect.y = st1.legendRect.y ∧
          stOut.legendRect.h = st1.legendRect.h := by
        rw [hout]
        exact hleg.2.1 hp5
      rcases hside with hs1 | hs2
      · apply interiorDisjoint_of_bottom_le
        rw [hyh.1]
        have h2 := hcanvas.2.2.2
        linarith
      · apply interiorDisjoint_of_top_ge
        rw [hyh.1, hyh.2]
        have h1 := hcanvas.2.2.1
        linarith

/-- Witness for the amended C5: `activate` over `quietPlot` on the
integer rectangle `(0, 0, 200, 150)` yields a canvas rectangle whose
interior avoids the title, footer and legend rectangles. -/
theorem activate_nonoverlap_witness :
    RectF.interiorDisjoint nonoverlapRun.canvasRect
      nonoverlapRun.titleRect ∧
    RectF.interiorDisjoint nonoverlapRun.canvasRect
      nonoverlapRun.footerRect ∧
    RectF.interiorDisjoint nonoverlapRun.canvasRect
      nonoverlapRun.legendRect :=
  activate_nonoverlap baseState quietPlot Options.none 0 0 200 150
    nonoverlapRun (Or.inr (Or.inr (Or.inl rfl)))
    ⟨Dims.zero, ⟨0, rfl, rfl⟩, rfl⟩

end QwtPlotLayout
